import Mathlib

/-!
Verification of the CymCalc symbolic-expression engine (`cymcalc.h`).

The development has two layers, both translated directly from the C source:

* a *tree-level* embedding (`CymCalc`): expression nodes as an inductive
  type.  The C sentinel `INVALID_INDEX`, which `expr_differentiate` and
  `expr_integrate` return as an ordinary value to signal an unsupported
  pattern, is modelled by the extra constructor `Expr.invalid`.  Sites
  where the C code calls `exit(1)` (a process abort) are modelled as
  `Except.error` with a `CAbort` code naming the abort site; these are
  *not* values the C functions ever return to their caller.
  `expr_simplify`, `expr_integrate` and `expr_div` recurse through
  freshly built nodes, so they take an explicit fuel parameter;
  exhausting fuel is the distinguished error `CAbort.fuelOut`, which
  corresponds to no C behaviour.

* an *arena-level* embedding (`CymCalc.Arena`): the slot pool,
  free list, handles, `expr_at`, and the allocation discipline of the C
  code, used for the claims about free slots, arena exhaustion, and the
  no-in-place-mutation frame property.

The GMP rational library is external to the repository (spec §6); it is
modelled by Lean's `ℚ` (exact canonical rationals, as `mpq_canonicalize`
guarantees), with `ratParse` modelling `mpq_set_str` (base 10,
`"n"`/`"n/d"`, optional leading minus) followed by `mpq_canonicalize`,
and division by the zero rational modelled as the abort
`CAbort.divByZero` (GMP raises SIGFPE on division by zero).
-/

namespace CymCalc

/-- Abort/error codes.  Each constructor other than `fuelOut` corresponds
to an `exit(1)` site in `cymcalc.h` (a process abort, not a value that is
ever returned to the caller).  `fuelOut` marks exhaustion of the explicit
recursion fuel of the Lean model and corresponds to no C behaviour. -/
inductive CAbort
  | fuelOut
  | invalidIndex
  | outOfMemory
  | parseError
  | unknownType
  | unknownFunc
  | freeSymbol
  | divByZero
  | notNumber
  | notSymbol
  | notFunc
  | notBinop
deriving DecidableEq, Repr

/-- `FuncType`: the four supported functions. -/
inductive FuncType
  | sin
  | cos
  | exp
  | log
deriving DecidableEq, Repr

/-- Tree-level expression, mirroring `ExprType`/`Expr` of `cymcalc.h`.
`invalid` models the handle sentinel `INVALID_INDEX` (`(size_t)-1`),
which `expr_differentiate`/`expr_integrate` return as a value for
unsupported patterns and which the C code can store as a child of an
otherwise well-formed node. -/
inductive Expr
  | number (value : ℚ)
  | symbol (name : String)
  | add (left right : Expr)
  | mul (left right : Expr)
  | pow (base exponent : Expr)
  | call (fn : FuncType) (arg : Expr)
  | diff (inner : Expr) (var : String)
  | integral (inner : Expr) (var : String)
  | invalid
deriving DecidableEq, Repr

/-- `expr_type(e) == EXPR_NUMBER`. -/
def Expr.isNumber : Expr → Bool
  | .number _ => true
  | _ => false

/-- left operand is a Number equal to 0 (`expr_type == EXPR_NUMBER &&
mpq_cmp_ui(value, 0, 1) == 0`). -/
def isNumZero : Expr → Bool
  | .number q => decide (q = 0)
  | _ => false

/-- left operand is a Number equal to 1. -/
def isNumOne : Expr → Bool
  | .number q => decide (q = 1)
  | _ => false

/-- the reorder rules of `expr_simplify` fire when the left operand is
`EXPR_SYMBOL || EXPR_FUNC || EXPR_MUL || EXPR_ADD`. -/
def reorderable : Expr → Bool
  | .symbol _ => true
  | .call _ _ => true
  | .mul _ _ => true
  | .add _ _ => true
  | _ => false

/-- value of a Number node (0 on other variants); projection used only to
state cascade characterisations. -/
def numValue : Expr → ℚ
  | .number q => q
  | _ => 0

/-- `expr_equal`, tree level.  The C function first short-circuits on
identical handles (`a_idx == b_idx`), which makes
`expr_equal(INVALID_INDEX, INVALID_INDEX)` return 1; this is the
`invalid, invalid` case below.  For *distinct* handles the C code calls
`expr_at`, which aborts when a handle is invalid or its slot is free
(the subsequent `if (!a || !b) return 0;` is dead code); that abort
behaviour is arena-specific and is modelled faithfully in
`CymCalc.Arena.expr_equal`.  All tree-level theorems below apply this
function to invalid-free expressions only, where it agrees with the C
recursion: Numbers by exact rational equality (`mpq_cmp == 0`), Symbols
by string equality, binary nodes child-wise in order, Call by function
kind and argument, Derivative/Integral by variable name and inner
expression. -/
def exprEqual : Expr → Expr → Bool
  | .number v1, .number v2 => decide (v1 = v2)
  | .symbol n1, .symbol n2 => decide (n1 = n2)
  | .add l1 r1, .add l2 r2 => exprEqual l1 l2 && exprEqual r1 r2
  | .mul l1 r1, .mul l2 r2 => exprEqual l1 l2 && exprEqual r1 r2
  | .pow l1 r1, .pow l2 r2 => exprEqual l1 l2 && exprEqual r1 r2
  | .call f1 a1, .call f2 a2 => decide (f1 = f2) && exprEqual a1 a2
  | .diff i1 v1, .diff i2 v2 => decide (v1 = v2) && exprEqual i1 i2
  | .integral i1 v1, .integral i2 v2 => decide (v1 = v2) && exprEqual i1 i2
  | .invalid, .invalid => true
  | _, _ => false

/-- Modelled from the spec (§6): the external GMP rational primitive.
Digit value of a decimal character. -/
def decDigit (c : Char) : Option Nat :=
  if c.isDigit then some (c.toNat - 48) else none

/-- Modelled from the spec (§6): decimal natural-number parsing as done
by `mpz_set_str` base 10 (no sign). -/
def natParse (cs : List Char) : Option Nat :=
  if cs.isEmpty then none
  else cs.foldl (fun acc c => acc.bind fun a => (decDigit c).map fun d => 10 * a + d) (some 0)

/-- Modelled from the spec (§6): decimal integer parsing with optional
leading minus. -/
def intParse (s : String) : Option Int :=
  match s.toList with
  | '-' :: rest => (natParse rest).map fun n => -(n : Int)
  | cs => (natParse cs).map fun n => (n : Int)

/-- Modelled from the spec (§6): `mpq_set_str(num, s, 10)` followed by
`mpq_canonicalize` — parse `"n"` or `"n/d"` into a canonical rational.
`none` models `mpq_set_str` returning nonzero on malformed input.
A zero denominator is also mapped to `none` here (a canonical `mpq`
cannot have denominator 0); no claim depends on that corner. -/
def ratParse (s : String) : Option ℚ :=
  match s.splitOn "/" with
  | [n] => (intParse n).map fun z => (z : ℚ)
  | [n, d] =>
      (intParse n).bind fun zn =>
        (intParse d).bind fun zd =>
          if zd = 0 then none else some ((zn : ℚ) / (zd : ℚ))
  | _ => none

/-- `expr_differentiate`, tree level.  Returns `.ok .invalid` where the C
code returns `INVALID_INDEX` (unsupported `Pow` shape).  Note that in the
`EXPR_ADD`/`EXPR_MUL` cases the C code feeds the recursive results
straight into `expr_add`/`expr_mul` without checking them against
`INVALID_INDEX`, so an inner unsupported pattern produces a node with an
invalid child rather than propagating the signal; the model reproduces
this (`.invalid` flows into the built node as a value).
`.error` cases model `expr_at`'s abort on the invalid handle and the
`default:` abort (`exit(1)`) on `EXPR_DIFF`/`EXPR_INT` inputs. -/
def expr_differentiate (e : Expr) (var_name : String) : Except CAbort Expr :=
  match e with
  | .invalid => .error .invalidIndex
  | .number _ => .ok (.number 0)
  | .symbol name => if name = var_name then .ok (.number 1) else .ok (.number 0)
  | .add l r => do
      let left ← expr_differentiate l var_name
      let right ← expr_differentiate r var_name
      .ok (.add left right)
  | .mul f g => do
      let df ← expr_differentiate f var_name
      let dg ← expr_differentiate g var_name
      .ok (.add (.mul df g) (.mul f dg))
  | .pow base exponent =>
      -- `expr_type(a, exponent)` aborts on an invalid handle; `&&`
      -- short-circuits, so `base` is only inspected for a Number exponent.
      match exponent with
      | .invalid => .error .invalidIndex
      | .number n =>
          match base with
          | .invalid => .error .invalidIndex
          | .symbol name =>
              if name = var_name then
                -- d/dx x^n = n * x^(n-1)
                .ok (.mul (.number n) (.pow (.symbol name) (.number (n - 1))))
              else .ok .invalid
          | _ => .ok .invalid
      | _ => .ok .invalid
  | .call fn u => do
      let du ← expr_differentiate u var_name
      match fn with
      | .sin => .ok (.mul (.call .cos u) du)
      | .cos => .ok (.mul (.mul (.number (-1)) (.call .sin u)) du)
      | .exp => .ok (.mul (.call .exp u) du)
      | .log => .ok (.mul (.pow u (.number (-1))) du)
  | .diff _ _ => .error .unknownType
  | .integral _ _ => .error .unknownType

mutual

/-- `expr_simplify`, tree level.  Post-order: children first, then the
fixed ordered rule cascade at the current node (Add: lines 709–767,
Mul: lines 769–872, Pow: lines 874–913 of `cymcalc.h`; rule order
preserved exactly).  `EXPR_DIFF`/`EXPR_INT` attempt full resolution via
`expr_differentiate`/`expr_integrate`; a non-`INVALID_INDEX` result is
re-simplified, otherwise the deferred node wraps the simplified inner
expression.  Simplifying the `invalid` handle models `expr_at`'s abort. -/
def expr_simplify (fuel : Nat) (e : Expr) : Except CAbort Expr :=
  match fuel with
  | 0 => .error .fuelOut
  | fuel + 1 =>
    match e with
    | .invalid => .error .invalidIndex
    | .number q => .ok (.number q)
    | .symbol s => .ok (.symbol s)
    | .add l r => do
        let left ← expr_simplify fuel l
        let right ← expr_simplify fuel r
        match left, right with
        | .number q1, .number q2 => .ok (.number (q1 + q2))  -- expr_add_numbers
        | _, _ =>
          if isNumZero left then expr_simplify fuel right    -- 0 + right → right
          else if isNumZero right then expr_simplify fuel left
          else if reorderable left && right.isNumber then
            -- rebuild as Add(right, left) and re-simplify
            expr_simplify fuel (.add right left)
          else
            match left, right with
            | .mul c x1, .mul b x2 =>
                -- a*x + b*x → (a+b)*x, the Mul returned without re-simplify
                if exprEqual x1 x2 then do
                  let sum ← expr_simplify fuel (.add c b)
                  .ok (.mul sum x1)
                else .ok (.add left right)
            | _, _ => .ok (.add left right)
    | .mul l r => do
        let left ← expr_simplify fuel l
        let right ← expr_simplify fuel r
        match left, right with
        | .number q1, .number q2 => .ok (.number (q1 * q2))  -- expr_mul_numbers
        | _, _ =>
          if isNumOne left then expr_simplify fuel right     -- 1 * right → right
          else if isNumZero left then .ok (.number 0)        -- 0 * anything → expr_number "0"
          else if reorderable left && right.isNumber then
            expr_simplify fuel (.mul right left)
          else
            match left, right with
            | .number q, .mul rl rr =>
                -- number * (number * expr) → (number * number) * expr
                let merged : Expr :=
                  match rl with
                  | .number q2 => .number (q * q2)           -- expr_mul_numbers
                  | _ => .mul (.number q) rl
                expr_simplify fuel (.mul merged rr)
            | .number q, .add rl rr =>
                -- number * (number + expr) → (number * number) + (number * expr)
                let merged : Expr :=
                  match rl with
                  | .number q2 => .number (q * q2)
                  | _ => .mul (.number q) rl
                expr_simplify fuel (.add merged (.mul (.number q) rr))
            | _, _ =>
              if exprEqual left right then
                -- x * x → x^2, then re-simplify
                expr_simplify fuel (.pow left (.number 2))
              else
                match left, right with
                | .pow b1 e1, .pow b2 e2 =>
                    -- x^a * x^b → x^(a+b), the Pow returned without re-simplify
                    if exprEqual b1 b2 then do
                      let expSum ← expr_simplify fuel (.add e1 e2)
                      .ok (.pow b1 expSum)
                    else .ok (.mul left right)
                | _, _ => .ok (.mul left right)
    | .pow b ex => do
        let base ← expr_simplify fuel b
        let exponent ← expr_simplify fuel ex
        -- exponent checks strictly before base checks
        if isNumZero exponent then .ok (.number 1)           -- x^0 = 1
        else if isNumOne exponent then expr_simplify fuel base
        else if isNumZero base then .ok (.number 0)          -- 0^x = 0
        else if isNumOne base then .ok (.number 1)           -- 1^x = 1
        else .ok (.pow base exponent)
    | .call fn u => do
        let arg ← expr_simplify fuel u
        .ok (.call fn arg)
    | .diff inner var => do
        let si ← expr_simplify fuel inner
        let attempted ← expr_differentiate si var
        if attempted = .invalid then .ok (.diff si var)
        else expr_simplify fuel attempted
    | .integral inner var => do
        let si ← expr_simplify fuel inner
        let attempted ← expr_integrate fuel si var
        if attempted = .invalid then .ok (.integral si var)
        else expr_simplify fuel attempted
termination_by structural fuel

/-- `expr_integrate`, tree level.  `.ok .invalid` models the recoverable
`INVALID_INDEX` return ("Couldn't resolve integration", reached only via
the `EXPR_MUL` `break`, and the unimplemented-power-rule return).  Note:
in `EXPR_MUL` only a Number *left* factor is pulled out — the
right-factor branch in the C source is commented out — and the recursive
result is fed unchecked into `expr_mul` (an `.invalid` child may be
embedded).  In `EXPR_FUNC`, when the argument is not exactly the
integration variable the C `case` falls through into `default:` and
aborts (`exit(1)`), modelled by `.error .unknownType`; `EXPR_DIFF`/
`EXPR_INT` inputs hit `default:` directly. -/
def expr_integrate (fuel : Nat) (e : Expr) (var_name : String) : Except CAbort Expr :=
  match fuel with
  | 0 => .error .fuelOut
  | fuel + 1 =>
    match e with
    | .invalid => .error .invalidIndex
    | .number q => .ok (.mul (.number q) (.symbol var_name))
    | .symbol s =>
        if s = var_name then
          .ok (.mul (.number (1/2)) (.pow (.symbol var_name) (.number 2)))
        else .ok (.mul (.symbol s) (.symbol var_name))
    | .add l r => do
        let left ← expr_integrate fuel l var_name
        let right ← expr_integrate fuel r var_name
        .ok (.add left right)
    | .mul f g =>
        -- expr_type(a, f) aborts on an invalid handle
        match f with
        | .invalid => .error .invalidIndex
        | .number q => do
            let inner ← expr_integrate fuel g var_name
            .ok (.mul (.number q) inner)
        | _ => .ok .invalid   -- break: product rule not implemented
    | .pow b ex =>
        match ex with
        | .invalid => .error .invalidIndex
        | .number n =>
            match b with
            | .invalid => .error .invalidIndex
            | .symbol name =>
                if name = var_name then do
                  -- one = expr_number "1"; new_exp = simplify(exponent + one)
                  let newExp ← expr_simplify fuel (.add (.number n) (.number 1))
                  -- x^(n+1) and 1/(n+1)
                  let coeff ← exprDiv fuel (.number 1) newExp
                  .ok (.mul coeff (.pow (.symbol name) newExp))
                else .ok .invalid
            | _ => .ok .invalid
        | _ => .ok .invalid
    | .call fn u =>
        match u with
        | .invalid => .error .invalidIndex
        | .symbol s =>
            if s = var_name then
              match fn with
              | .sin => .ok (.mul (.number (-1)) (.call .cos u))
              | .cos => .ok (.call .sin u)
              | .exp => .ok (.call .exp u)
              | .log => .ok (.pow u (.number (-1)))
            else .error .unknownType   -- fall-through into default: exit(1)
        | _ => .error .unknownType     -- fall-through into default: exit(1)
    | .diff _ _ => .error .unknownType
    | .integral _ _ => .error .unknownType
termination_by structural fuel

/-- `expr_div`, tree level.  An invalid numerator or denominator handle
makes the C function return `INVALID_INDEX` (a value).  Division of the
rational 1 by the rational 0 (`mpq_div`) is the external library's
division by zero, modelled as the abort `.divByZero`. -/
def exprDiv (fuel : Nat) (num den : Expr) : Except CAbort Expr :=
  match fuel with
  | 0 => .error .fuelOut
  | fuel + 1 =>
    if num = .invalid ∨ den = .invalid then .ok .invalid
    else if isNumOne den then .ok num                    -- a / 1 = a
    else if isNumZero num then .ok (.number 0)           -- 0 / b = 0
    else if exprEqual num den then .ok (.number 1)       -- a / a = 1
    else
      match num, den with
      | .number q1, .number q2 =>
          if q2 = 0 then .error .divByZero               -- mpq_div by zero: SIGFPE
          else .ok (.number (q1 / q2))
      | _, _ =>
          -- a / b → simplify(a * b^(-1))
          expr_simplify fuel (.mul num (.pow den (.number (-1))))
termination_by structural fuel

end

/-- `expr_substitute`, tree level.  Structural recursion; a Symbol named
`symbol_name` becomes `expr_number(value_str)` (whose parse failure is
the `exit(1)` abort `.parseError`); Numbers and other Symbols are
returned as the same handle; `EXPR_DIFF`/`EXPR_INT` hit the aborting
`default:` case ("Unknown expression type in expr_substitute"). -/
def expr_substitute (e : Expr) (symbol_name value_str : String) : Except CAbort Expr :=
  match e with
  | .invalid => .error .invalidIndex
  | .number _ => .ok e
  | .symbol n =>
      if n = symbol_name then
        match ratParse value_str with
        | some q => .ok (.number q)
        | none => .error .parseError
      else .ok e
  | .add l r => do
      let left ← expr_substitute l symbol_name value_str
      let right ← expr_substitute r symbol_name value_str
      .ok (.add left right)
  | .mul l r => do
      let left ← expr_substitute l symbol_name value_str
      let right ← expr_substitute r symbol_name value_str
      .ok (.mul left right)
  | .pow b ex => do
      let base ← expr_substitute b symbol_name value_str
      let exponent ← expr_substitute ex symbol_name value_str
      .ok (.pow base exponent)
  | .call fn u => do
      let arg ← expr_substitute u symbol_name value_str
      .ok (.call fn arg)
  | .diff _ _ => .error .unknownType
  | .integral _ _ => .error .unknownType

/-- Modelled from the spec (§4.7): "pure structural replacement of every
Symbol node named `symbolName` with a fresh `Number(parse(valueLiteral))`;
does not simplify".  Used as the specification-side definition against
which `expr_substitute` is compared. -/
def substSpec (e : Expr) (symbolName : String) (q : ℚ) : Expr :=
  match e with
  | .symbol n => if n = symbolName then .number q else e
  | .add l r => .add (substSpec l symbolName q) (substSpec r symbolName q)
  | .mul l r => .mul (substSpec l symbolName q) (substSpec r symbolName q)
  | .pow b ex => .pow (substSpec b symbolName q) (substSpec ex symbolName q)
  | .call fn u => .call fn (substSpec u symbolName q)
  | e => e

/-- Expressions built only from the variants `expr_substitute` handles
(everything except the deferred `Derivative`/`Integral` nodes and the
invalid sentinel). -/
def noDeferred : Expr → Bool
  | .number _ => true
  | .symbol _ => true
  | .add l r => noDeferred l && noDeferred r
  | .mul l r => noDeferred l && noDeferred r
  | .pow l r => noDeferred l && noDeferred r
  | .call _ u => noDeferred u
  | _ => false

/-- The Mul/Pow-free fragment: expressions built from Number, Symbol, Add
and Call only.  On this fragment none of the simplifier rules that return
an unsimplified node (the like-term rule and the power-merge rule) can
fire, and simplification is idempotent. -/
def noMulPow : Expr → Bool
  | .number _ => true
  | .symbol _ => true
  | .add l r => noMulPow l && noMulPow r
  | .call _ u => noMulPow u
  | _ => false

/-- The `EXPR_ADD` rule cascade of `expr_simplify` applied to the
already-simplified children, named for use in proofs; definitionally the
corresponding portion of the `expr_simplify` body. -/
def addCascade (fuel : Nat) (left right : Expr) : Except CAbort Expr :=
  match left, right with
  | .number q1, .number q2 => .ok (.number (q1 + q2))
  | _, _ =>
    if isNumZero left then expr_simplify fuel right
    else if isNumZero right then expr_simplify fuel left
    else if reorderable left && right.isNumber then
      expr_simplify fuel (.add right left)
    else
      match left, right with
      | .mul c x1, .mul b x2 =>
          if exprEqual x1 x2 then do
            let sum ← expr_simplify fuel (.add c b)
            .ok (.mul sum x1)
          else .ok (.add left right)
      | _, _ => .ok (.add left right)

/-- The `EXPR_MUL` rule cascade of `expr_simplify` applied to the
already-simplified children; definitionally the corresponding portion of
the `expr_simplify` body. -/
def mulCascade (fuel : Nat) (left right : Expr) : Except CAbort Expr :=
  match left, right with
  | .number q1, .number q2 => .ok (.number (q1 * q2))
  | _, _ =>
    if isNumOne left then expr_simplify fuel right
    else if isNumZero left then .ok (.number 0)
    else if reorderable left && right.isNumber then
      expr_simplify fuel (.mul right left)
    else
      match left, right with
      | .number q, .mul rl rr =>
          let merged : Expr :=
            match rl with
            | .number q2 => .number (q * q2)
            | _ => .mul (.number q) rl
          expr_simplify fuel (.mul merged rr)
      | .number q, .add rl rr =>
          let merged : Expr :=
            match rl with
            | .number q2 => .number (q * q2)
            | _ => .mul (.number q) rl
          expr_simplify fuel (.add merged (.mul (.number q) rr))
      | _, _ =>
        if exprEqual left right then
          expr_simplify fuel (.pow left (.number 2))
        else
          match left, right with
          | .pow b1 e1, .pow b2 e2 =>
              if exprEqual b1 b2 then do
                let expSum ← expr_simplify fuel (.add e1 e2)
                .ok (.pow b1 expSum)
              else .ok (.mul left right)
          | _, _ => .ok (.mul left right)

/-- The `EXPR_POW` rule cascade of `expr_simplify` applied to the
already-simplified base and exponent; definitionally the corresponding
portion of the `expr_simplify` body. -/
def powCascade (fuel : Nat) (base exponent : Expr) : Except CAbort Expr :=
  if isNumZero exponent then .ok (.number 1)
  else if isNumOne exponent then expr_simplify fuel base
  else if isNumZero base then .ok (.number 0)
  else if isNumOne base then .ok (.number 1)
  else .ok (.pow base exponent)

/-!
## Arena-level embedding

Faithful model of the slot pool of `cymcalc.h`: `pool` is the slot array,
`freeList`/`freeCount` the stack of free-slot indices.  Handles are plain
naturals; `INVALID_INDEX` is `(size_t)-1`.  A freshly allocated slot has
its data `memset` to zero but its `type` field stale; this is the
`NodeData.uninit` state (consumers that switch on the stale tag reach
their aborting `default:` case, modelled as `.error .unknownType`).
-/

namespace Arena

def MAX_EXPR_COUNT : Nat := 10000

/-- `(size_t)-1` on a 64-bit platform. -/
def INVALID_INDEX : Nat := 2 ^ 64 - 1

/-- Arena node payload: the variant tag together with its union member. -/
inductive NodeData
  | number (value : ℚ)
  | symbol (name : String)
  | add (left right : Nat)
  | mul (left right : Nat)
  | pow (base exponent : Nat)
  | func (fn : FuncType) (arg : Nat)
  | diff (inner : Nat) (var : String)
  | integral (inner : Nat) (var : String)
  | uninit
deriving DecidableEq, Repr

/-- One slot of the pool: the `used` bookkeeping flag and the node. -/
structure Slot where
  used : Bool
  node : NodeData
deriving DecidableEq, Repr

/-- `ExprArena`: pool of `MAX_EXPR_COUNT` slots plus the free-list stack
(`freeList j` for `j < freeCount` are the indices of free slots; the top
of the stack is at position `freeCount - 1`). -/
structure ExprArena where
  pool : Nat → Slot
  freeList : Nat → Nat
  freeCount : Nat

/-- `expr_arena_init`: all slots free; `free_list[i] = MAX-1-i`, so the
first allocation returns slot 0. -/
def expr_arena_init : ExprArena where
  pool := fun _ => ⟨false, .uninit⟩
  freeList := fun i => MAX_EXPR_COUNT - 1 - i
  freeCount := MAX_EXPR_COUNT

/-- `expr_arena_alloc`: pops the top free-list entry, marks the slot used
and clears its data (`memset`, leaving the variant tag stale: `.uninit`).
Exhaustion (`free_count == 0`) is the abort
"ExprArena out of memory! exit(1)", modelled `.error .outOfMemory`. -/
def expr_arena_alloc (a : ExprArena) : Except CAbort (ExprArena × Nat) :=
  if a.freeCount = 0 then .error .outOfMemory
  else
    let index := a.freeList (a.freeCount - 1)
    .ok ({ a with
            freeCount := a.freeCount - 1
            pool := fun j => if j = index then ⟨true, .uninit⟩ else a.pool j },
         index)

/-- `expr_arena_free`: no-op on `INVALID_INDEX` or an already-free slot;
otherwise releases the payload, clears `used` and pushes the index on the
free list (LIFO). -/
def expr_arena_free (a : ExprArena) (index : Nat) : ExprArena :=
  if index = INVALID_INDEX ∨ (a.pool index).used = false then a
  else
    { pool := fun j => if j = index then ⟨false, .uninit⟩ else a.pool j
      freeList := fun j => if j = a.freeCount then index else a.freeList j
      freeCount := a.freeCount + 1 }

/-- `expr_at`: aborts (`exit(1)`, "error out of range expr index") when
the handle is `INVALID_INDEX`, out of range, or addresses a free slot;
otherwise yields the node.  (The commented-out `return NULL` in the C
source is dead.) -/
def expr_at (a : ExprArena) (index : Nat) : Except CAbort NodeData :=
  if index = INVALID_INDEX ∨ MAX_EXPR_COUNT ≤ index ∨ (a.pool index).used = false
  then .error .invalidIndex
  else .ok (a.pool index).node

/-- Writing the fields of the node returned by `expr_at` through the
pointer: replaces the slot's node, leaving the `used` flag. -/
def writeNode (a : ExprArena) (index : Nat) (n : NodeData) : ExprArena :=
  { a with pool := fun j => if j = index then ⟨(a.pool j).used, n⟩ else a.pool j }

/-- `expr_number`: allocate, reach the slot via `expr_at`, parse
(`mpq_set_str` + `mpq_canonicalize`); a malformed literal is the abort
"Invalid rational string: ... exit(1)", modelled `.error .parseError`.
(The C code initialises the slot before parsing; on the abort path the
process dies, so checking the parse first is observationally the same.) -/
def expr_number (a : ExprArena) (num_str : String) : Except CAbort (ExprArena × Nat) :=
  match expr_arena_alloc a with
  | .error e => .error e
  | .ok (a1, idx) =>
    match expr_at a1 idx with
    | .error e => .error e
    | .ok _ =>
      match ratParse num_str with
      | none => .error .parseError
      | some q => .ok (writeNode a1 idx (.number q), idx)

/-- `expr_number_mpq`: allocate and store an already-canonical rational. -/
def expr_number_mpq (a : ExprArena) (value : ℚ) : Except CAbort (ExprArena × Nat) :=
  match expr_arena_alloc a with
  | .error e => .error e
  | .ok (a1, idx) =>
    match expr_at a1 idx with
    | .error e => .error e
    | .ok _ => .ok (writeNode a1 idx (.number value), idx)

/-- `expr_symbol`: stores a copy of the name (`strdup`). -/
def expr_symbol (a : ExprArena) (name : String) : Except CAbort (ExprArena × Nat) :=
  match expr_arena_alloc a with
  | .error e => .error e
  | .ok (a1, idx) =>
    match expr_at a1 idx with
    | .error e => .error e
    | .ok _ => .ok (writeNode a1 idx (.symbol name), idx)

/-- `expr_add`: raw constructor, does not inspect (or validate) the child
handles. -/
def expr_add (a : ExprArena) (left right : Nat) : Except CAbort (ExprArena × Nat) :=
  match expr_arena_alloc a with
  | .error e => .error e
  | .ok (a1, idx) =>
    match expr_at a1 idx with
    | .error e => .error e
    | .ok _ => .ok (writeNode a1 idx (.add left right), idx)

/-- `expr_mul`: raw constructor. -/
def expr_mul (a : ExprArena) (left right : Nat) : Except CAbort (ExprArena × Nat) :=
  match expr_arena_alloc a with
  | .error e => .error e
  | .ok (a1, idx) =>
    match expr_at a1 idx with
    | .error e => .error e
    | .ok _ => .ok (writeNode a1 idx (.mul left right), idx)

/-- `expr_pow`: raw constructor. -/
def expr_pow (a : ExprArena) (base exponent : Nat) : Except CAbort (ExprArena × Nat) :=
  match expr_arena_alloc a with
  | .error e => .error e
  | .ok (a1, idx) =>
    match expr_at a1 idx with
    | .error e => .error e
    | .ok _ => .ok (writeNode a1 idx (.pow base exponent), idx)

/-- `expr_func`: validates the function kind (all four enum values pass;
an out-of-enum value would abort — unrepresentable here) and stores it. -/
def expr_func (a : ExprArena) (f : FuncType) (arg : Nat) : Except CAbort (ExprArena × Nat) :=
  match expr_arena_alloc a with
  | .error e => .error e
  | .ok (a1, idx) =>
    match expr_at a1 idx with
    | .error e => .error e
    | .ok _ => .ok (writeNode a1 idx (.func f arg), idx)

/-- `expr_diff`: the deferred-derivative-node constructor of the public
API. -/
def expr_diff (a : ExprArena) (f : Nat) (var : String) : Except CAbort (ExprArena × Nat) :=
  match expr_arena_alloc a with
  | .error e => .error e
  | .ok (a1, idx) =>
    match expr_at a1 idx with
    | .error e => .error e
    | .ok _ => .ok (writeNode a1 idx (.diff f var), idx)

/-- `expr_int`: the deferred-integral-node constructor of the public API. -/
def expr_int (a : ExprArena) (f : Nat) (var : String) : Except CAbort (ExprArena × Nat) :=
  match expr_arena_alloc a with
  | .error e => .error e
  | .ok (a1, idx) =>
    match expr_at a1 idx with
    | .error e => .error e
    | .ok _ => .ok (writeNode a1 idx (.integral f var), idx)

/-- `expr_add_numbers`: reads both operands (aborting `.notNumber`,
"operands must be EXPR_NUMBER exit(1)", unless both are Numbers), then
allocates the exact sum. -/
def expr_add_numbers (a : ExprArena) (a_idx b_idx : Nat) : Except CAbort (ExprArena × Nat) :=
  match expr_at a a_idx with
  | .error e => .error e
  | .ok na =>
    match expr_at a b_idx with
    | .error e => .error e
    | .ok nb =>
      match na, nb with
      | .number q1, .number q2 =>
          match expr_arena_alloc a with
          | .error e => .error e
          | .ok (a1, idx) =>
            match expr_at a1 idx with
            | .error e => .error e
            | .ok _ => .ok (writeNode a1 idx (.number (q1 + q2)), idx)
      | _, _ => .error .notNumber

/-- `expr_mul_numbers`: as `expr_add_numbers`, with the exact product. -/
def expr_mul_numbers (a : ExprArena) (a_idx b_idx : Nat) : Except CAbort (ExprArena × Nat) :=
  match expr_at a a_idx with
  | .error e => .error e
  | .ok na =>
    match expr_at a b_idx with
    | .error e => .error e
    | .ok nb =>
      match na, nb with
      | .number q1, .number q2 =>
          match expr_arena_alloc a with
          | .error e => .error e
          | .ok (a1, idx) =>
            match expr_at a1 idx with
            | .error e => .error e
            | .ok _ => .ok (writeNode a1 idx (.number (q1 * q2)), idx)
      | _, _ => .error .notNumber

/-- node-level test `expr_type(..) == EXPR_NUMBER`. -/
def isNumberN : NodeData → Bool
  | .number _ => true
  | _ => false

/-- node is a Number with value 0. -/
def numIsZero : NodeData → Bool
  | .number q => decide (q = 0)
  | _ => false

/-- node is a Number with value 1. -/
def numIsOne : NodeData → Bool
  | .number q => decide (q = 1)
  | _ => false

/-- node type is `EXPR_SYMBOL || EXPR_FUNC || EXPR_MUL || EXPR_ADD`
(the reorder-rule guard). -/
def reorderableN : NodeData → Bool
  | .symbol _ => true
  | .func _ _ => true
  | .mul _ _ => true
  | .add _ _ => true
  | _ => false

/-- `expr_equal`, arena level.  Identical handles compare equal
immediately (including `INVALID_INDEX` with itself); the
`a_idx < 0 || b_idx < 0` guard of the C source is vacuous for the
unsigned `size_t` and the `if (!a || !b) return 0;` line is dead code,
because `expr_at` aborts on an invalid handle or a free slot — so for
*distinct* handles a free slot means the `InvalidIndex` abort, not a
`false` result.  Recursion through child handles is fuelled.  Two slots
with a stale (`uninit`) tag would compare garbage tags in C; that
unmodellable corner is mapped to the aborting `default:` case. -/
def expr_equal (fuel : Nat) (a : ExprArena) (a_idx b_idx : Nat) : Except CAbort Bool :=
  match fuel with
  | 0 => .error .fuelOut
  | fuel + 1 =>
    if a_idx = b_idx then .ok true
    else
      match expr_at a a_idx with
      | .error e => .error e
      | .ok na =>
        match expr_at a b_idx with
        | .error e => .error e
        | .ok nb =>
          match na, nb with
          | .number v1, .number v2 => .ok (decide (v1 = v2))
          | .symbol n1, .symbol n2 => .ok (decide (n1 = n2))
          | .add l1 r1, .add l2 r2 =>
              match expr_equal fuel a l1 l2 with
              | .error e => .error e
              | .ok false => .ok false
              | .ok true => expr_equal fuel a r1 r2
          | .mul l1 r1, .mul l2 r2 =>
              match expr_equal fuel a l1 l2 with
              | .error e => .error e
              | .ok false => .ok false
              | .ok true => expr_equal fuel a r1 r2
          | .pow l1 r1, .pow l2 r2 =>
              match expr_equal fuel a l1 l2 with
              | .error e => .error e
              | .ok false => .ok false
              | .ok true => expr_equal fuel a r1 r2
          | .func f1 u1, .func f2 u2 =>
              if f1 = f2 then expr_equal fuel a u1 u2 else .ok false
          | .diff i1 v1, .diff i2 v2 =>
              if v1 = v2 then expr_equal fuel a i1 i2 else .ok false
          | .integral i1 v1, .integral i2 v2 =>
              if v1 = v2 then expr_equal fuel a i1 i2 else .ok false
          | .uninit, .uninit => .error .unknownType
          | _, _ => .ok false
termination_by structural fuel

/-- `expr_substitute`, arena level.  Numbers and non-matching Symbols are
returned as the same handle; a matching Symbol becomes a fresh
`expr_number(value_str)`; binary/Call nodes are rebuilt from recursively
substituted children; `EXPR_DIFF`/`EXPR_INT` (and a stale tag) hit the
aborting `default:` case.  (`if (!e) return INVALID_INDEX` is dead:
`expr_at` aborts.) -/
def expr_substitute (fuel : Nat) (a : ExprArena) (idx : Nat)
    (symbol_name value_str : String) : Except CAbort (ExprArena × Nat) :=
  match fuel with
  | 0 => .error .fuelOut
  | fuel + 1 =>
    match expr_at a idx with
    | .error e => .error e
    | .ok n =>
      match n with
      | .number _ => .ok (a, idx)
      | .symbol nm =>
          if nm = symbol_name then expr_number a value_str else .ok (a, idx)
      | .add l r =>
          match expr_substitute fuel a l symbol_name value_str with
          | .error e => .error e
          | .ok (a1, left) =>
            match expr_substitute fuel a1 r symbol_name value_str with
            | .error e => .error e
            | .ok (a2, right) => expr_add a2 left right
      | .mul l r =>
          match expr_substitute fuel a l symbol_name value_str with
          | .error e => .error e
          | .ok (a1, left) =>
            match expr_substitute fuel a1 r symbol_name value_str with
            | .error e => .error e
            | .ok (a2, right) => expr_mul a2 left right
      | .pow l r =>
          match expr_substitute fuel a l symbol_name value_str with
          | .error e => .error e
          | .ok (a1, base) =>
            match expr_substitute fuel a1 r symbol_name value_str with
            | .error e => .error e
            | .ok (a2, exponent) => expr_pow a2 base exponent
      | .func f u =>
          match expr_substitute fuel a u symbol_name value_str with
          | .error e => .error e
          | .ok (a1, arg) => expr_func a1 f arg
      | .diff _ _ => .error .unknownType
      | .integral _ _ => .error .unknownType
      | .uninit => .error .unknownType
termination_by structural fuel

/-- `expr_differentiate`, arena level.  `INVALID_INDEX` is returned as a
*value* for the unsupported `Pow` shape ("Power rule for general
expressions not implemented yet") — and in the `EXPR_ADD`/`EXPR_MUL`
cases the recursive results are passed to `expr_add`/`expr_mul`
unchecked, so an invalid child handle can be stored in the new node.
The coefficient re-read `expr_value(a, exponent)` happens after the
intermediate allocations, which do not touch the exponent slot, so the
value read earlier is used. -/
def expr_differentiate (fuel : Nat) (a : ExprArena) (idx : Nat)
    (var_name : String) : Except CAbort (ExprArena × Nat) :=
  match fuel with
  | 0 => .error .fuelOut
  | fuel + 1 =>
    match expr_at a idx with
    | .error e => .error e
    | .ok n =>
      match n with
      | .number _ => expr_number a "0"
      | .symbol nm =>
          if nm = var_name then expr_number a "1" else expr_number a "0"
      | .add l r =>
          match expr_differentiate fuel a l var_name with
          | .error e => .error e
          | .ok (a1, left) =>
            match expr_differentiate fuel a1 r var_name with
            | .error e => .error e
            | .ok (a2, right) => expr_add a2 left right
      | .mul f g =>
          match expr_differentiate fuel a f var_name with
          | .error e => .error e
          | .ok (a1, df) =>
            match expr_differentiate fuel a1 g var_name with
            | .error e => .error e
            | .ok (a2, dg) =>
              match expr_mul a2 df g with
              | .error e => .error e
              | .ok (a3, left_term) =>
                match expr_mul a3 f dg with
                | .error e => .error e
                | .ok (a4, right_term) => expr_add a4 left_term right_term
      | .pow base exponent =>
          match expr_at a exponent with
          | .error e => .error e
          | .ok nex =>
            match nex with
            | .number nq =>
                match expr_at a base with
                | .error e => .error e
                | .ok nb =>
                  match nb with
                  | .symbol nm =>
                      if nm = var_name then
                        -- d/dx x^n = n * x^(n-1), n-1 via mpq_sub
                        match expr_number_mpq a (nq - 1) with
                        | .error e => .error e
                        | .ok (a1, new_exp_idx) =>
                          match expr_pow a1 base new_exp_idx with
                          | .error e => .error e
                          | .ok (a2, x_pow) =>
                            match expr_number_mpq a2 nq with
                            | .error e => .error e
                            | .ok (a3, coeff_n) => expr_mul a3 coeff_n x_pow
                      else .ok (a, INVALID_INDEX)
                  | _ => .ok (a, INVALID_INDEX)
            | _ => .ok (a, INVALID_INDEX)
      | .func f u =>
          match expr_differentiate fuel a u var_name with
          | .error e => .error e
          | .ok (a1, du) =>
            match f with
            | .sin =>
                match expr_func a1 .cos u with
                | .error e => .error e
                | .ok (a2, cos_u) => expr_mul a2 cos_u du
            | .cos =>
                match expr_func a1 .sin u with
                | .error e => .error e
                | .ok (a2, sin_u) =>
                  match expr_number a2 "-1" with
                  | .error e => .error e
                  | .ok (a3, neg1) =>
                    match expr_mul a3 neg1 sin_u with
                    | .error e => .error e
                    | .ok (a4, neg_sin_u) => expr_mul a4 neg_sin_u du
            | .exp =>
                match expr_func a1 .exp u with
                | .error e => .error e
                | .ok (a2, exp_u) => expr_mul a2 exp_u du
            | .log =>
                match expr_number a1 "-1" with
                | .error e => .error e
                | .ok (a2, neg1) =>
                  match expr_pow a2 u neg1 with
                  | .error e => .error e
                  | .ok (a3, reiprocal) => expr_mul a3 reiprocal du
      | .diff _ _ => .error .unknownType
      | .integral _ _ => .error .unknownType
      | .uninit => .error .unknownType
termination_by structural fuel

mutual

/-- `expr_simplify`, arena level.  The rule cascades re-read the nodes of
the simplified children before each rule through pure `expr_type`/
`expr_value` reads; the arena does not change between the checks, so each
node is read once here.  (The C `&&` short-circuits would skip some of
these reads, which is observationally the same because the results of
recursive simplification are always live handles.) -/
def expr_simplify (fuel : Nat) (a : ExprArena) (idx : Nat) :
    Except CAbort (ExprArena × Nat) :=
  match fuel with
  | 0 => .error .fuelOut
  | fuel + 1 =>
    match expr_at a idx with
    | .error e => .error e
    | .ok n =>
      match n with
      | .number _ => .ok (a, idx)
      | .symbol _ => .ok (a, idx)
      | .add l r =>
          match expr_simplify fuel a l with
          | .error e => .error e
          | .ok (a1, left) =>
            match expr_simplify fuel a1 r with
            | .error e => .error e
            | .ok (a2, right) =>
              match expr_at a2 left with
              | .error e => .error e
              | .ok nl =>
                match expr_at a2 right with
                | .error e => .error e
                | .ok nr =>
                  match nl, nr with
                  | .number _, .number _ => expr_add_numbers a2 left right
                  | _, _ =>
                    if numIsZero nl then expr_simplify fuel a2 right
                    else if numIsZero nr then expr_simplify fuel a2 left
                    else if reorderableN nl && isNumberN nr then
                      match expr_add a2 right left with
                      | .error e => .error e
                      | .ok (a3, swapped) => expr_simplify fuel a3 swapped
                    else
                      match nl, nr with
                      | .mul c x1, .mul b x2 =>
                          match expr_equal fuel a2 x1 x2 with
                          | .error e => .error e
                          | .ok true =>
                              match expr_add a2 c b with
                              | .error e => .error e
                              | .ok (a3, cb) =>
                                match expr_simplify fuel a3 cb with
                                | .error e => .error e
                                | .ok (a4, sum) => expr_mul a4 sum x1
                          | .ok false => expr_add a2 left right
                      | _, _ => expr_add a2 left right
      | .mul l r =>
          match expr_simplify fuel a l with
          | .error e => .error e
          | .ok (a1, left) =>
            match expr_simplify fuel a1 r with
            | .error e => .error e
            | .ok (a2, right) =>
              match expr_at a2 left with
              | .error e => .error e
              | .ok nl =>
                match expr_at a2 right with
                | .error e => .error e
                | .ok nr =>
                  match nl, nr with
                  | .number _, .number _ => expr_mul_numbers a2 left right
                  | _, _ =>
                    if numIsOne nl then expr_simplify fuel a2 right
                    else if numIsZero nl then expr_number a2 "0"
                    else if reorderableN nl && isNumberN nr then
                      match expr_mul a2 right left with
                      | .error e => .error e
                      | .ok (a3, swapped) => expr_simplify fuel a3 swapped
                    else
                      match nl, nr with
                      | .number _, .mul rl rr =>
                          match expr_at a2 rl with
                          | .error e => .error e
                          | .ok nrl =>
                            match (match nrl with
                                   | .number _ => expr_mul_numbers a2 left rl
                                   | _ => expr_mul a2 left rl) with
                            | .error e => .error e
                            | .ok (a3, merged) =>
                              match expr_mul a3 merged rr with
                              | .error e => .error e
                              | .ok (a4, newmul) => expr_simplify fuel a4 newmul
                      | .number _, .add rl rr =>
                          match expr_at a2 rl with
                          | .error e => .error e
                          | .ok nrl =>
                            match (match nrl with
                                   | .number _ => expr_mul_numbers a2 left rl
                                   | _ => expr_mul a2 left rl) with
                            | .error e => .error e
                            | .ok (a3, merged) =>
                              match expr_mul a3 left rr with
                              | .error e => .error e
                              | .ok (a4, rightright) =>
                                match expr_add a4 merged rightright with
                                | .error e => .error e
                                | .ok (a5, newadd) => expr_simplify fuel a5 newadd
                      | _, _ =>
                        match expr_equal fuel a2 left right with
                        | .error e => .error e
                        | .ok true =>
                            match expr_number a2 "2" with
                            | .error e => .error e
                            | .ok (a3, two) =>
                              match expr_pow a3 left two with
                              | .error e => .error e
                              | .ok (a4, sq) => expr_simplify fuel a4 sq
                        | .ok false =>
                            match nl, nr with
                            | .pow b1 e1, .pow b2 e2 =>
                                match expr_equal fuel a2 b1 b2 with
                                | .error e => .error e
                                | .ok true =>
                                    match expr_add a2 e1 e2 with
                                    | .error e => .error e
                                    | .ok (a3, es) =>
                                      match expr_simplify fuel a3 es with
                                      | .error e => .error e
                                      | .ok (a4, exp_sum) => expr_pow a4 b1 exp_sum
                                | .ok false => expr_mul a2 left right
                            | _, _ => expr_mul a2 left right
      | .pow b ex =>
          match expr_simplify fuel a b with
          | .error e => .error e
          | .ok (a1, base) =>
            match expr_simplify fuel a1 ex with
            | .error e => .error e
            | .ok (a2, exponent) =>
              match expr_at a2 exponent with
              | .error e => .error e
              | .ok nex =>
                if numIsZero nex then expr_number a2 "1"
                else if numIsOne nex then expr_simplify fuel a2 base
                else
                  match expr_at a2 base with
                  | .error e => .error e
                  | .ok nb =>
                    if numIsZero nb then expr_number a2 "0"
                    else if numIsOne nb then expr_number a2 "1"
                    else expr_pow a2 base exponent
      | .func f u =>
          match expr_simplify fuel a u with
          | .error e => .error e
          | .ok (a1, arg) => expr_func a1 f arg
      | .diff inner var =>
          match expr_simplify fuel a inner with
          | .error e => .error e
          | .ok (a1, simplified_inner) =>
            match expr_differentiate fuel a1 simplified_inner var with
            | .error e => .error e
            | .ok (a2, attempted) =>
              if attempted = INVALID_INDEX then expr_diff a2 simplified_inner var
              else expr_simplify fuel a2 attempted
      | .integral inner var =>
          match expr_simplify fuel a inner with
          | .error e => .error e
          | .ok (a1, simp_inner) =>
            match expr_integrate fuel a1 simp_inner var with
            | .error e => .error e
            | .ok (a2, attempted) =>
              if attempted = INVALID_INDEX then expr_int a2 simp_inner var
              else expr_simplify fuel a2 attempted
      | .uninit => .error .unknownType
termination_by structural fuel

/-- `expr_integrate`, arena level.  `.ok (a, INVALID_INDEX)` models the
recoverable "Couldn't resolve integration" return; the `EXPR_FUNC` case
with an argument that is not exactly the integration variable falls
through into the aborting `default:` (`exit(1)`), as do `EXPR_DIFF`/
`EXPR_INT` inputs. -/
def expr_integrate (fuel : Nat) (a : ExprArena) (idx : Nat)
    (var_name : String) : Except CAbort (ExprArena × Nat) :=
  match fuel with
  | 0 => .error .fuelOut
  | fuel + 1 =>
    match expr_at a idx with
    | .error e => .error e
    | .ok n =>
      match n with
      | .number _ =>
          match expr_symbol a var_name with
          | .error e => .error e
          | .ok (a1, sym) => expr_mul a1 idx sym
      | .symbol s =>
          if s = var_name then
            match expr_number a "1/2" with
            | .error e => .error e
            | .ok (a1, half) =>
              match expr_symbol a1 var_name with
              | .error e => .error e
              | .ok (a2, sym) =>
                match expr_number a2 "2" with
                | .error e => .error e
                | .ok (a3, two) =>
                  match expr_pow a3 sym two with
                  | .error e => .error e
                  | .ok (a4, p) => expr_mul a4 half p
          else
            match expr_symbol a var_name with
            | .error e => .error e
            | .ok (a1, sym) => expr_mul a1 idx sym
      | .add l r =>
          match expr_integrate fuel a l var_name with
          | .error e => .error e
          | .ok (a1, left) =>
            match expr_integrate fuel a1 r var_name with
            | .error e => .error e
            | .ok (a2, right) => expr_add a2 left right
      | .mul f g =>
          match expr_at a f with
          | .error e => .error e
          | .ok nf =>
            match nf with
            | .number _ =>
                match expr_integrate fuel a g var_name with
                | .error e => .error e
                | .ok (a1, inner) => expr_mul a1 f inner
            | _ => .ok (a, INVALID_INDEX)   -- break: product rule not implemented
      | .pow bidx eidx =>
          match expr_at a eidx with
          | .error e => .error e
          | .ok nex =>
            match nex with
            | .number _ =>
                match expr_at a bidx with
                | .error e => .error e
                | .ok nb =>
                  match nb with
                  | .symbol nm =>
                      if nm = var_name then
                        match expr_number a "1" with
                        | .error e => .error e
                        | .ok (a1, one) =>
                          match expr_add a1 eidx one with
                          | .error e => .error e
                          | .ok (a2, ne0) =>
                            match expr_simplify fuel a2 ne0 with
                            | .error e => .error e
                            | .ok (a3, new_exp) =>
                              match expr_pow a3 bidx new_exp with
                              | .error e => .error e
                              | .ok (a4, pow_expr) =>
                                match expr_div fuel a4 one new_exp with
                                | .error e => .error e
                                | .ok (a5, coeff) => expr_mul a5 coeff pow_expr
                      else .ok (a, INVALID_INDEX)
                  | _ => .ok (a, INVALID_INDEX)
            | _ => .ok (a, INVALID_INDEX)
      | .func f u =>
          match expr_at a u with
          | .error e => .error e
          | .ok nu =>
            match nu with
            | .symbol s =>
                if s = var_name then
                  match f with
                  | .sin =>
                      match expr_func a .cos u with
                      | .error e => .error e
                      | .ok (a1, cos_u) =>
                        match expr_number a1 "-1" with
                        | .error e => .error e
                        | .ok (a2, neg1) => expr_mul a2 neg1 cos_u
                  | .cos => expr_func a .sin u
                  | .exp => expr_func a .exp u
                  | .log =>
                      match expr_number a "-1" with
                      | .error e => .error e
                      | .ok (a1, neg1) => expr_pow a1 u neg1
                else .error .unknownType   -- fall-through into default: exit(1)
            | _ => .error .unknownType     -- fall-through into default: exit(1)
      | .diff _ _ => .error .unknownType
      | .integral _ _ => .error .unknownType
      | .uninit => .error .unknownType
termination_by structural fuel

/-- `expr_div`, arena level.  Invalid operand handles yield
`INVALID_INDEX` as a value; both-numeric division by the zero rational is
the external library's division by zero (SIGFPE), modelled
`.error .divByZero`. -/
def expr_div (fuel : Nat) (a : ExprArena) (num den : Nat) :
    Except CAbort (ExprArena × Nat) :=
  match fuel with
  | 0 => .error .fuelOut
  | fuel + 1 =>
    if num = INVALID_INDEX ∨ den = INVALID_INDEX then .ok (a, INVALID_INDEX)
    else
      match expr_at a num with
      | .error e => .error e
      | .ok nn =>
        match expr_at a den with
        | .error e => .error e
        | .ok nd =>
          if numIsOne nd then .ok (a, num)            -- a / 1 = a
          else if numIsZero nn then expr_number a "0" -- 0 / b = 0
          else
            match expr_equal fuel a num den with
            | .error e => .error e
            | .ok true => expr_number a "1"           -- a / a = 1
            | .ok false =>
                match nn, nd with
                | .number q1, .number q2 =>
                    if q2 = 0 then .error .divByZero
                    else expr_number_mpq a (q1 / q2)
                | _, _ =>
                    match expr_number a "-1" with
                    | .error e => .error e
                    | .ok (a1, minus_one) =>
                      match expr_pow a1 den minus_one with
                      | .error e => .error e
                      | .ok (a2, reciprocal) =>
                        match expr_mul a2 num reciprocal with
                        | .error e => .error e
                        | .ok (a3, result) => expr_simplify fuel a3 result
termination_by structural fuel

end

/-- `mpq_get_d`: external conversion of an exact rational to a double. -/
def ratToFloat (q : ℚ) : Float :=
  Float.ofInt q.num / Float.ofNat q.den

/-- `expr_eval_numeric`, arena level: strict recursive floating-point
reduction.  Reaching a Symbol is the abort "Cannot evaluate expression
with free symbol ... exit(1)", modelled `.error .freeSymbol`.  The
function only reads the arena (it allocates nothing), which the Lean type
makes explicit by not returning an arena. -/
def expr_eval_numeric (fuel : Nat) (a : ExprArena) (idx : Nat) :
    Except CAbort Float :=
  match fuel with
  | 0 => .error .fuelOut
  | fuel + 1 =>
    match expr_at a idx with
    | .error e => .error e
    | .ok n =>
      match n with
      | .number q => .ok (ratToFloat q)
      | .symbol _ => .error .freeSymbol
      | .add l r =>
          match expr_eval_numeric fuel a l with
          | .error e => .error e
          | .ok left =>
            match expr_eval_numeric fuel a r with
            | .error e => .error e
            | .ok right => .ok (left + right)
      | .mul l r =>
          match expr_eval_numeric fuel a l with
          | .error e => .error e
          | .ok left =>
            match expr_eval_numeric fuel a r with
            | .error e => .error e
            | .ok right => .ok (left * right)
      | .pow l r =>
          match expr_eval_numeric fuel a l with
          | .error e => .error e
          | .ok base =>
            match expr_eval_numeric fuel a r with
            | .error e => .error e
            | .ok exponent => .ok (Float.pow base exponent)
      | .func f u =>
          match expr_eval_numeric fuel a u with
          | .error e => .error e
          | .ok arg_val =>
            match f with
            | .sin => .ok (Float.sin arg_val)
            | .cos => .ok (Float.cos arg_val)
            | .exp => .ok (Float.exp arg_val)
            | .log => .ok (Float.log arg_val)
      | .diff _ _ => .error .unknownType
      | .integral _ _ => .error .unknownType
      | .uninit => .error .unknownType
termination_by structural fuel

/-- A node is occupied (live) in the arena. -/
def Occupied (a : ExprArena) (i : Nat) : Prop :=
  (a.pool i).used = true

/-- The frame property: every slot occupied in `a` holds exactly the same
slot contents (variant tag and full payload) in `b`. -/
def Frame (a b : ExprArena) : Prop :=
  ∀ i, (a.pool i).used = true → b.pool i = a.pool i

/-- Well-formedness of the arena's free list: the live free-list entries
address distinct, in-range, free slots.  This is the invariant the C
allocation discipline maintains; it is what makes `expr_arena_alloc`
hand out a slot that is not occupied. -/
def WF (a : ExprArena) : Prop :=
  a.freeCount ≤ MAX_EXPR_COUNT ∧
  (∀ j, j < a.freeCount → a.freeList j < MAX_EXPR_COUNT ∧ (a.pool (a.freeList j)).used = false) ∧
  (∀ j, j < a.freeCount → ∀ k, k < a.freeCount → a.freeList j = a.freeList k → j = k)

instance (a : ExprArena) : Decidable (WF a) := by unfold WF; infer_instance

/-- A two-free-slot arena holding the single node `Symbol "x"` in slot 0;
slot 1 is free.  Used as a concrete test arena. -/
def sampleArena : ExprArena where
  pool := fun i => if i = 0 then ⟨true, .symbol "x"⟩ else ⟨false, .uninit⟩
  freeList := fun j => j + 1
  freeCount := 2

/-- An arena whose free list is exhausted (`free_count == 0`). -/
def exhaustedArena : ExprArena where
  pool := fun _ => ⟨false, .uninit⟩
  freeList := fun j => j
  freeCount := 0

/-- The no-in-place-mutation property at arena `a`: every operation of
the API that can allocate (the constructors, `expr_add_numbers`/
`expr_mul_numbers`, substitution, the differentiator, the simplifier,
the integrator and `expr_div`), whenever it completes successfully,
preserves the variant tag and full payload of every node occupied before
the call (`Frame`).  `expr_equal` and `expr_eval_numeric` do not return
an arena at all in this model, reflecting that they only read it. -/
def NoMutationSpec (a : ExprArena) : Prop :=
  (∀ s a2 r, expr_number a s = .ok (a2, r) → Frame a a2) ∧
  (∀ q a2 r, expr_number_mpq a q = .ok (a2, r) → Frame a a2) ∧
  (∀ nm a2 r, expr_symbol a nm = .ok (a2, r) → Frame a a2) ∧
  (∀ l rr a2 r, expr_add a l rr = .ok (a2, r) → Frame a a2) ∧
  (∀ l rr a2 r, expr_mul a l rr = .ok (a2, r) → Frame a a2) ∧
  (∀ l rr a2 r, expr_pow a l rr = .ok (a2, r) → Frame a a2) ∧
  (∀ fn u a2 r, expr_func a fn u = .ok (a2, r) → Frame a a2) ∧
  (∀ u v a2 r, expr_diff a u v = .ok (a2, r) → Frame a a2) ∧
  (∀ u v a2 r, expr_int a u v = .ok (a2, r) → Frame a a2) ∧
  (∀ i j a2 r, expr_add_numbers a i j = .ok (a2, r) → Frame a a2) ∧
  (∀ i j a2 r, expr_mul_numbers a i j = .ok (a2, r) → Frame a a2) ∧
  (∀ fuel i sn vs a2 r, expr_substitute fuel a i sn vs = .ok (a2, r) → Frame a a2) ∧
  (∀ fuel i v a2 r, expr_differentiate fuel a i v = .ok (a2, r) → Frame a a2) ∧
  (∀ fuel i a2 r, expr_simplify fuel a i = .ok (a2, r) → Frame a a2) ∧
  (∀ fuel i v a2 r, expr_integrate fuel a i v = .ok (a2, r) → Frame a a2) ∧
  (∀ fuel i j a2 r, expr_div fuel a i j = .ok (a2, r) → Frame a a2)

end Arena

/-!
## Theorems

Infrastructure lemmas first (one-step unfolding equations, `Except` bind
laws, frame/allocation lemmas), then the claim theorems.
-/

theorem ebind_ok {α β : Type} (a : α) (f : α → Except CAbort β) :
    (Except.ok a : Except CAbort α) >>= f = f a := rfl

theorem ebind_error {α β : Type} (e : CAbort) (f : α → Except CAbort β) :
    (Except.error e : Except CAbort α) >>= f = .error e := rfl

theorem expr_simplify_fuel0 (e : Expr) : expr_simplify 0 e = .error .fuelOut := rfl

theorem expr_simplify_number (fuel : Nat) (q : ℚ) :
    expr_simplify (fuel + 1) (.number q) = .ok (.number q) := rfl

theorem expr_simplify_symbol (fuel : Nat) (s : String) :
    expr_simplify (fuel + 1) (.symbol s) = .ok (.symbol s) := rfl

theorem expr_simplify_add (fuel : Nat) (l r : Expr) :
    expr_simplify (fuel + 1) (.add l r) =
      (expr_simplify fuel l >>= fun left =>
       expr_simplify fuel r >>= fun right =>
       addCascade fuel left right) := rfl

theorem expr_simplify_mul (fuel : Nat) (l r : Expr) :
    expr_simplify (fuel + 1) (.mul l r) =
      (expr_simplify fuel l >>= fun left =>
       expr_simplify fuel r >>= fun right =>
       mulCascade fuel left right) := rfl

theorem expr_simplify_pow (fuel : Nat) (b ex : Expr) :
    expr_simplify (fuel + 1) (.pow b ex) =
      (expr_simplify fuel b >>= fun base =>
       expr_simplify fuel ex >>= fun exponent =>
       powCascade fuel base exponent) := rfl

theorem expr_simplify_call (fuel : Nat) (fn : FuncType) (u : Expr) :
    expr_simplify (fuel + 1) (.call fn u) =
      (expr_simplify fuel u >>= fun arg => .ok (.call fn arg)) := rfl

theorem expr_integrate_fuel0 (e : Expr) (v : String) :
    expr_integrate 0 e v = .error .fuelOut := rfl

theorem expr_integrate_mul (fuel : Nat) (f g : Expr) (v : String) :
    expr_integrate (fuel + 1) (.mul f g) v =
      (match f with
       | .invalid => .error .invalidIndex
       | .number q => expr_integrate fuel g v >>= fun inner => .ok (.mul (.number q) inner)
       | _ => .ok .invalid) := rfl

theorem expr_integrate_pow_symbol (fuel : Nat) (name v : String) (n : ℚ) :
    expr_integrate (fuel + 1) (.pow (.symbol name) (.number n)) v =
      (if name = v then
         expr_simplify fuel (.add (.number n) (.number 1)) >>= fun newExp =>
         exprDiv fuel (.number 1) newExp >>= fun coeff =>
         .ok (.mul coeff (.pow (.symbol name) newExp))
       else .ok .invalid) := rfl

theorem exprDiv_unfold (fuel : Nat) (num den : Expr) :
    exprDiv (fuel + 1) num den =
      (if num = .invalid ∨ den = .invalid then .ok .invalid
       else if isNumOne den then .ok num
       else if isNumZero num then .ok (.number 0)
       else if exprEqual num den then .ok (.number 1)
       else
         match num, den with
         | .number q1, .number q2 =>
             if q2 = 0 then .error .divByZero else .ok (.number (q1 / q2))
         | _, _ => expr_simplify fuel (.mul num (.pow den (.number (-1))))) := rfl

/-- `exprEqual` is reflexive: an expression is structurally equal to
itself. -/
theorem exprEqual_refl (e : Expr) : exprEqual e e = true := by
  induction e <;> simp [exprEqual, *]

/-- `addCascade` on two Numbers is their exact sum. -/
theorem addCascade_numbers (fuel : Nat) (q1 q2 : ℚ) :
    addCascade fuel (.number q1) (.number q2) = .ok (.number (q1 + q2)) := rfl

/-- On a Mul/Pow-free left operand the Add cascade is the plain ordered
if-chain (the like-term rule, which needs a Mul on the left, cannot
fire). -/
theorem addCascade_eq_of_frag (f : Nat) (L R : Expr) (hL : noMulPow L = true) :
    addCascade f L R =
      (if (L.isNumber && R.isNumber) = true then .ok (.number (numValue L + numValue R))
       else if isNumZero L then expr_simplify f R
       else if isNumZero R then expr_simplify f L
       else if reorderable L && R.isNumber then expr_simplify f (.add R L)
       else .ok (.add L R)) := by
  cases L <;> cases R <;> simp_all [addCascade, noMulPow, Expr.isNumber, isNumZero, reorderable, numValue]

/-- Mul/Pow-free expressions simplify to Mul/Pow-free expressions. -/
theorem simplify_frag_closed : ∀ (f : Nat) (e s : Expr), noMulPow e = true →
    expr_simplify f e = .ok s → noMulPow s = true := by
  intro f
  induction f with
  | zero => intro e s _ h; simp [expr_simplify_fuel0] at h
  | succ f ih =>
    intro e s he h
    cases e with
    | number q => rw [expr_simplify_number] at h; cases h; exact he
    | symbol n => rw [expr_simplify_symbol] at h; cases h; exact he
    | add l r =>
        simp only [noMulPow, Bool.and_eq_true] at he
        rw [expr_simplify_add] at h
        cases hl : expr_simplify f l with
        | error e1 => rw [hl, ebind_error] at h; cases h
        | ok L =>
          rw [hl, ebind_ok] at h
          cases hr : expr_simplify f r with
          | error e1 => rw [hr, ebind_error] at h; cases h
          | ok R =>
            rw [hr, ebind_ok] at h
            have hLf := ih l L he.1 hl
            have hRf := ih r R he.2 hr
            rw [addCascade_eq_of_frag f L R hLf] at h
            by_cases h1 : (L.isNumber && R.isNumber) = true
            · rw [if_pos h1] at h; cases h; rfl
            · rw [if_neg h1] at h
              by_cases h2 : isNumZero L = true
              · rw [if_pos h2] at h; exact ih R s hRf h
              · rw [if_neg h2] at h
                by_cases h3 : isNumZero R = true
                · rw [if_pos h3] at h; exact ih L s hLf h
                · rw [if_neg h3] at h
                  by_cases h4 : (reorderable L && R.isNumber) = true
                  · rw [if_pos h4] at h
                    exact ih (.add R L) s (by simp [noMulPow, hRf, hLf]) h
                  · rw [if_neg h4] at h; cases h; simp [noMulPow, hLf, hRf]
    | call fn u =>
        simp only [noMulPow] at he
        rw [expr_simplify_call] at h
        cases hu : expr_simplify f u with
        | error e1 => rw [hu, ebind_error] at h; cases h
        | ok A =>
            rw [hu, ebind_ok] at h; cases h
            simp [noMulPow, ih u A he hu]
    | mul l r => simp [noMulPow] at he
    | pow l r => simp [noMulPow] at he
    | diff i v => simp [noMulPow] at he
    | integral i v => simp [noMulPow] at he
    | invalid => simp [noMulPow] at he

theorem addCascade_mono (f : Nat)
    (Mf : ∀ e s, noMulPow e = true → expr_simplify f e = .ok s → expr_simplify (f+1) e = .ok s)
    (L R s : Expr) (hL : noMulPow L = true) (hR : noMulPow R = true)
    (hc : addCascade f L R = .ok s) : addCascade (f+1) L R = .ok s := by
  rw [addCascade_eq_of_frag f L R hL] at hc
  rw [addCascade_eq_of_frag (f+1) L R hL]
  by_cases h1 : (L.isNumber && R.isNumber) = true
  · rw [if_pos h1] at hc ⊢; exact hc
  · rw [if_neg h1] at hc ⊢
    by_cases h2 : isNumZero L = true
    · rw [if_pos h2] at hc ⊢; exact Mf R s hR hc
    · rw [if_neg h2] at hc ⊢
      by_cases h3 : isNumZero R = true
      · rw [if_pos h3] at hc ⊢; exact Mf L s hL hc
      · rw [if_neg h3] at hc ⊢
        by_cases h4 : (reorderable L && R.isNumber) = true
        · rw [if_pos h4] at hc ⊢
          exact Mf (.add R L) s (by simp [noMulPow, hL, hR]) hc
        · rw [if_neg h4] at hc ⊢; exact hc

theorem simplify_frag_mono : ∀ (f : Nat) (e s : Expr), noMulPow e = true →
    expr_simplify f e = .ok s → expr_simplify (f+1) e = .ok s := by
  intro f
  induction f with
  | zero => intro e s _ h; simp [expr_simplify_fuel0] at h
  | succ f ih =>
    intro e s he h
    cases e with
    | number q => rw [expr_simplify_number] at h ⊢; exact h
    | symbol n => rw [expr_simplify_symbol] at h ⊢; exact h
    | add l r =>
        simp only [noMulPow, Bool.and_eq_true] at he
        rw [expr_simplify_add] at h
        cases hl : expr_simplify f l with
        | error e1 => rw [hl, ebind_error] at h; cases h
        | ok L =>
          rw [hl, ebind_ok] at h
          cases hr : expr_simplify f r with
          | error e1 => rw [hr, ebind_error] at h; cases h
          | ok R =>
            rw [hr, ebind_ok] at h
            have hLf := simplify_frag_closed f l L he.1 hl
            have hRf := simplify_frag_closed f r R he.2 hr
            rw [expr_simplify_add, ih l L he.1 hl, ebind_ok, ih r R he.2 hr, ebind_ok]
            exact addCascade_mono f ih L R s hLf hRf h
    | call fn u =>
        simp only [noMulPow] at he
        rw [expr_simplify_call] at h
        cases hu : expr_simplify f u with
        | error e1 => rw [hu, ebind_error] at h; cases h
        | ok A =>
            rw [hu, ebind_ok] at h
            rw [expr_simplify_call, ih u A he hu, ebind_ok]
            exact h
    | mul l r => simp [noMulPow] at he
    | pow l r => simp [noMulPow] at he
    | diff i v => simp [noMulPow] at he
    | integral i v => simp [noMulPow] at he
    | invalid => simp [noMulPow] at he

theorem simplify_frag_mono_le (f g : Nat) (e s : Expr) (hfg : f ≤ g) (he : noMulPow e = true)
    (h : expr_simplify f e = .ok s) : expr_simplify g e = .ok s := by
  obtain ⟨k, rfl⟩ := Nat.exists_eq_add_of_le hfg
  clear hfg
  induction k with
  | zero => exact h
  | succ k ihk => rw [show f + (k+1) = (f + k) + 1 by omega]; exact simplify_frag_mono _ e s he ihk

theorem simplify_frag_det (f g : Nat) (e s t : Expr) (he : noMulPow e = true)
    (h1 : expr_simplify f e = .ok s) (h2 : expr_simplify g e = .ok t) : s = t := by
  rcases Nat.le_total f g with hle | hle
  · have := simplify_frag_mono_le f g e s hle he h1
    rw [this] at h2; cases h2; rfl
  · have := simplify_frag_mono_le g f e t hle he h2
    rw [this] at h1; cases h1; rfl

theorem simplify_frag_fix : ∀ (f : Nat) (e s : Expr), noMulPow e = true →
    expr_simplify f e = .ok s → expr_simplify f s = .ok s := by
  intro f
  induction f with
  | zero => intro e s _ h; simp [expr_simplify_fuel0] at h
  | succ f ih =>
    intro e s he h
    cases e with
    | number q => rw [expr_simplify_number] at h; cases h; exact expr_simplify_number f q
    | symbol n => rw [expr_simplify_symbol] at h; cases h; exact expr_simplify_symbol f n
    | add l r =>
        simp only [noMulPow, Bool.and_eq_true] at he
        rw [expr_simplify_add] at h
        cases hl : expr_simplify f l with
        | error e1 => rw [hl, ebind_error] at h; cases h
        | ok L =>
          rw [hl, ebind_ok] at h
          cases hr : expr_simplify f r with
          | error e1 => rw [hr, ebind_error] at h; cases h
          | ok R =>
            rw [hr, ebind_ok] at h
            have hLf := simplify_frag_closed f l L he.1 hl
            have hRf := simplify_frag_closed f r R he.2 hr
            have hLfix := ih l L he.1 hl
            have hRfix := ih r R he.2 hr
            rw [addCascade_eq_of_frag f L R hLf] at h
            by_cases h1 : (L.isNumber && R.isNumber) = true
            · rw [if_pos h1] at h; cases h; exact expr_simplify_number f _
            · rw [if_neg h1] at h
              by_cases h2 : isNumZero L = true
              · rw [if_pos h2] at h
                have hsR : R = s := by
                  have := hRfix.symm.trans h
                  exact Except.ok.inj this
                subst hsR
                exact simplify_frag_mono f R R hRf hRfix
              · rw [if_neg h2] at h
                by_cases h3 : isNumZero R = true
                · rw [if_pos h3] at h
                  have hsL : L = s := by
                    have := hLfix.symm.trans h
                    exact Except.ok.inj this
                  subst hsL
                  exact simplify_frag_mono f L L hLf hLfix
                · rw [if_neg h3] at h
                  by_cases h4 : (reorderable L && R.isNumber) = true
                  · rw [if_pos h4] at h
                    have hfragRL : noMulPow (.add R L) = true := by simp [noMulPow, hLf, hRf]
                    have := ih (.add R L) s hfragRL h
                    exact simplify_frag_mono f s s (simplify_frag_closed f (.add R L) s hfragRL h) this
                  · rw [if_neg h4] at h; cases h
                    rw [expr_simplify_add, hLfix, ebind_ok, hRfix, ebind_ok]
                    rw [addCascade_eq_of_frag f L R hLf]
                    rw [if_neg h1, if_neg h2, if_neg h3, if_neg h4]
    | call fn u =>
        simp only [noMulPow] at he
        rw [expr_simplify_call] at h
        cases hu : expr_simplify f u with
        | error e1 => rw [hu, ebind_error] at h; cases h
        | ok A =>
            rw [hu, ebind_ok] at h; cases h
            rw [expr_simplify_call, ih u A he hu, ebind_ok]
    | mul l r => simp [noMulPow] at he
    | pow l r => simp [noMulPow] at he
    | diff i v => simp [noMulPow] at he
    | integral i v => simp [noMulPow] at he
    | invalid => simp [noMulPow] at he

/-- C1 counterexample: simplify is *not* idempotent.  At
`e = Add(Mul(Number 2, Symbol "x"), Mul(Number (-2), Symbol "x"))` the
like-term rule returns `Mul(Number 0, Symbol "x")` without
re-simplifying, and a second simplify collapses it to `Number 0`, which
is not structurally equal (per `exprEqual`) to the first result.
Likewise the power-merge rule on `x^2 * x^(-2)` returns `Pow(x, Number 0)`
whose further simplification is `Number 1`. -/
theorem c1_counterexample :
    expr_simplify 9 (.add (.mul (.number 2) (.symbol "x")) (.mul (.number (-2)) (.symbol "x")))
      = .ok (.mul (.number 0) (.symbol "x")) ∧
    expr_simplify 9 (.mul (.number 0) (.symbol "x")) = .ok (.number 0) ∧
    exprEqual (.number 0) (.mul (.number 0) (.symbol "x")) = false ∧
    expr_simplify 9 (.mul (.pow (.symbol "x") (.number 2)) (.pow (.symbol "x") (.number (-2))))
      = .ok (.pow (.symbol "x") (.number 0)) ∧
    expr_simplify 9 (.pow (.symbol "x") (.number 0)) = .ok (.number 1) ∧
    exprEqual (.number 1) (.pow (.symbol "x") (.number 0)) = false := by
  refine ⟨?_, ?_, ?_, ?_, ?_, ?_⟩ <;> with_unfolding_all rfl

/-- C1 amended: idempotence fails in general because the like-term rule
(`c1*x + c2*x → Mul(simplify(Add(c1,c2)), x)`) and the power-merge rule
(`x^a * x^b → Pow(base, simplify(Add(a,b)))`) return their Mul/Pow
without re-simplifying (counterexamples above).  It does hold on the
fragment free of Mul and Pow nodes (expressions built from Number,
Symbol, Add and Call), where neither rule can fire: there, whenever
`simplify e` succeeds with result `s`, re-simplifying `s` (with any
fuel) succeeds and is structurally equal (per `expr_equal`) to `s`. -/
theorem c1_idempotent_amended (e : Expr) (f g : Nat) (s t : Expr)
    (hfrag : noMulPow e = true)
    (h1 : expr_simplify f e = .ok s) (h2 : expr_simplify g s = .ok t) :
    exprEqual t s = true := by
  have hs := simplify_frag_closed f e s hfrag h1
  have hfix := simplify_frag_fix f e s hfrag h1
  have : s = t := simplify_frag_det f g s s t hs hfix h2
  rw [← this]; exact exprEqual_refl s

/-- C1 witness: `1 + x` is already in simplified form. -/
theorem c1_idempotent_amended_witness :
    noMulPow (.add (.number 1) (.symbol "x")) = true ∧
    expr_simplify 3 (.add (.number 1) (.symbol "x")) = .ok (.add (.number 1) (.symbol "x")) ∧
    exprEqual (.add (.number 1) (.symbol "x")) (.add (.number 1) (.symbol "x")) = true :=
  ⟨by decide, by with_unfolding_all rfl,
   c1_idempotent_amended (.add (.number 1) (.symbol "x")) 3 3
     (.add (.number 1) (.symbol "x")) (.add (.number 1) (.symbol "x"))
     (by decide) (by with_unfolding_all rfl) (by with_unfolding_all rfl)⟩

/-- C7: FTC round-trip on `f = Add(Pow(Symbol "x", Number 3), Call(sin, Symbol "x"))`:
`differentiate(f, "x")` is the raw product/power-rule output
`3*x^2 + cos(x)*1`, whose simplification is structurally equal to
`Add(Mul(Number 3, Pow(Symbol "x", Number 2)), Call(cos, Symbol "x"))`;
integrating that and simplifying is structurally equal to `simplify(f)`,
which is `f` itself. -/
theorem c7_ftc_round_trip :
    expr_differentiate (.add (.pow (.symbol "x") (.number 3)) (.call .sin (.symbol "x"))) "x"
      = .ok (.add (.mul (.number 3) (.pow (.symbol "x") (.number 2)))
                  (.mul (.call .cos (.symbol "x")) (.number 1))) ∧
    expr_simplify 30 (.add (.mul (.number 3) (.pow (.symbol "x") (.number 2)))
                          (.mul (.call .cos (.symbol "x")) (.number 1)))
      = .ok (.add (.mul (.number 3) (.pow (.symbol "x") (.number 2)))
                  (.call .cos (.symbol "x"))) ∧
    expr_integrate 30 (.add (.mul (.number 3) (.pow (.symbol "x") (.number 2)))
                           (.call .cos (.symbol "x"))) "x"
      = .ok (.add (.mul (.number 3) (.mul (.number (1/3)) (.pow (.symbol "x") (.number 3))))
                  (.call .sin (.symbol "x"))) ∧
    expr_simplify 30 (.add (.mul (.number 3) (.mul (.number (1/3)) (.pow (.symbol "x") (.number 3))))
                          (.call .sin (.symbol "x")))
      = .ok (.add (.pow (.symbol "x") (.number 3)) (.call .sin (.symbol "x"))) ∧
    expr_simplify 30 (.add (.pow (.symbol "x") (.number 3)) (.call .sin (.symbol "x")))
      = .ok (.add (.pow (.symbol "x") (.number 3)) (.call .sin (.symbol "x"))) ∧
    exprEqual (.add (.pow (.symbol "x") (.number 3)) (.call .sin (.symbol "x")))
              (.add (.pow (.symbol "x") (.number 3)) (.call .sin (.symbol "x"))) = true := by
  refine ⟨?_, ?_, ?_, ?_, ?_, ?_⟩ <;> with_unfolding_all rfl

/-- C8: the Pow cascade fires the exponent-zero rule first — for every
base `b` whose simplification succeeds, `simplify(Pow(b, Number 0))` is
`Number 1` regardless of the base (in particular `0^0 = 1`, not `0`) —
and the base-zero rule produces `Number 0` only once the simplified
exponent is neither `Number 0` nor `Number 1`. -/
theorem c8_pow_rule_order :
    (∀ (fuel : Nat) (b sb : Expr), expr_simplify fuel b = .ok sb →
      expr_simplify (fuel + 1) (.pow b (.number 0)) = .ok (.number 1)) ∧
    expr_simplify 5 (.pow (.number 0) (.number 0)) = .ok (.number 1) ∧
    (∀ (fuel : Nat) (ex sex : Expr), expr_simplify fuel ex = .ok sex →
      isNumZero sex = false → isNumOne sex = false →
      expr_simplify (fuel + 1) (.pow (.number 0) ex) = .ok (.number 0)) := by
  refine ⟨?_, by with_unfolding_all rfl, ?_⟩
  · intro fuel b sb h
    cases fuel with
    | zero => simp [expr_simplify_fuel0] at h
    | succ f =>
        rw [expr_simplify_pow, h, ebind_ok, expr_simplify_number, ebind_ok]
        simp [powCascade, isNumZero]
  · intro fuel ex sex h h0 h1
    cases fuel with
    | zero => simp [expr_simplify_fuel0] at h
    | succ f =>
        rw [expr_simplify_pow, expr_simplify_number, ebind_ok, h, ebind_ok]
        simp only [powCascade]
        rw [h0, h1]
        simp [isNumZero]

/-- C8 witness: base `Symbol "x"` for the exponent-zero conjunct and
exponent `Number 2` for the base-zero conjunct. -/
theorem c8_pow_rule_order_witness :
    expr_simplify 1 (.symbol "x") = .ok (.symbol "x") ∧
    expr_simplify 2 (.pow (.symbol "x") (.number 0)) = .ok (.number 1) ∧
    expr_simplify 1 (.number 2) = .ok (.number 2) ∧
    isNumZero (.number 2) = false ∧ isNumOne (.number 2) = false ∧
    expr_simplify 2 (.pow (.number 0) (.number 2)) = .ok (.number 0) :=
  ⟨by with_unfolding_all rfl,
   c8_pow_rule_order.1 1 (.symbol "x") (.symbol "x") (by with_unfolding_all rfl),
   by with_unfolding_all rfl,
   by with_unfolding_all rfl,
   by with_unfolding_all rfl,
   c8_pow_rule_order.2.2 1 (.number 2) (.number 2) (by with_unfolding_all rfl)
     (by with_unfolding_all rfl) (by with_unfolding_all rfl)⟩

/-- C3: evaluation of the code at the failing input
`e = Add(Pow(Call(sin, Symbol "x"), Number 2), Symbol "x")`, variable "x".
The unsupported `Pow` at top level is signalled recoverably
(`INVALID_INDEX`, first conjunct), but nested inside the `Add` the
recursive result is fed unchecked into `expr_add`: the differentiator
returns an apparently valid Add node whose left child is the invalid
sentinel (second conjunct), and the simplifier's deferred-node path then
aborts through `expr_at(INVALID_INDEX)` instead of keeping a deferred
Derivative node (third conjunct) — contradicting the claimed recoverable
propagation. -/
theorem c3_nested_unsupported_pow :
    expr_differentiate (.pow (.call .sin (.symbol "x")) (.number 2)) "x" = .ok .invalid ∧
    expr_differentiate (.add (.pow (.call .sin (.symbol "x")) (.number 2)) (.symbol "x")) "x"
      = .ok (.add .invalid (.number 1)) ∧
    expr_simplify 10 (.diff (.add (.pow (.call .sin (.symbol "x")) (.number 2)) (.symbol "x")) "x")
      = .error .invalidIndex := by
  refine ⟨?_, ?_, ?_⟩ <;> with_unfolding_all rfl

/-- C2 counterexample: the claim says `integrate(Mul(f, g), var)` is
resolved exactly when exactly one factor is a Number.  Both directions
fail: `Mul(Call(sin, x), Number 2)` (the Number on the right, exactly one
Number) is Unresolved — the result is the `INVALID_INDEX` sentinel, not a
resolved product — because the right-factor branch is commented out; and
`Mul(Number 2, Number 3)` (two Numbers, so "exactly one" fails) *is*
resolved to `Mul(Number 2, Mul(Number 3, Symbol "x"))`. -/
theorem c2_counterexample :
    expr_integrate 9 (.mul (.call .sin (.symbol "x")) (.number 2)) "x" = .ok .invalid ∧
    expr_integrate 9 (.mul (.number 2) (.number 3)) "x"
      = .ok (.mul (.number 2) (.mul (.number 3) (.symbol "x"))) := by
  refine ⟨?_, ?_⟩ <;> with_unfolding_all rfl

/-- C2 amended: `integrate(Mul(f, g), var)` pulls out the factor only
when the *left* factor is a Number (the result multiplies it onto the
integral of the right factor); whenever the left factor is any live
non-Number node — even if the right factor is a Number — it signals
Unresolved (`INVALID_INDEX`), a recoverable non-result.  In particular
the spec's instance `Mul(Call(sin, x), Call(exp, x))` is Unresolved. -/
theorem c2_integrate_mul_amended :
    (∀ (fuel : Nat) (q : ℚ) (g gi : Expr) (v : String),
        expr_integrate fuel g v = .ok gi →
        expr_integrate (fuel + 1) (.mul (.number q) g) v = .ok (.mul (.number q) gi)) ∧
    (∀ (fuel : Nat) (f g : Expr) (v : String),
        f ≠ .invalid → f.isNumber = false →
        expr_integrate (fuel + 1) (.mul f g) v = .ok .invalid) ∧
    expr_integrate 9 (.mul (.call .sin (.symbol "x")) (.call .exp (.symbol "x"))) "x"
      = .ok .invalid := by
  refine ⟨?_, ?_, by with_unfolding_all rfl⟩
  · intro fuel q g gi v h
    simp [expr_integrate_mul, h, ebind_ok]
  · intro fuel f g v hinv hnum
    cases f <;> simp_all [expr_integrate_mul, Expr.isNumber]

/-- C2 witness: pulled-out Number left factor at `Mul(Number 2, Symbol "x")`
and Unresolved at `Mul(Call(sin, x), Number 1)`. -/
theorem c2_integrate_mul_amended_witness :
    expr_integrate 5 (.symbol "x") "x"
      = .ok (.mul (.number (1/2)) (.pow (.symbol "x") (.number 2))) ∧
    expr_integrate 6 (.mul (.number 2) (.symbol "x")) "x"
      = .ok (.mul (.number 2) (.mul (.number (1/2)) (.pow (.symbol "x") (.number 2)))) ∧
    (Expr.call .sin (.symbol "x") ≠ .invalid) ∧
    (Expr.call .sin (.symbol "x")).isNumber = false ∧
    expr_integrate 6 (.mul (.call .sin (.symbol "x")) (.number 1)) "x" = .ok .invalid :=
  ⟨by with_unfolding_all rfl,
   c2_integrate_mul_amended.1 5 2 (.symbol "x") (.mul (.number (1/2)) (.pow (.symbol "x") (.number 2)))
     "x" (by with_unfolding_all rfl),
   by decide, by decide,
   c2_integrate_mul_amended.2.1 5 (.call .sin (.symbol "x")) (.number 1) "x"
     (by decide) (by decide)⟩

/-- C4 counterexample: at `n = -1` (exponent `Number (-1)`), the claimed
postcondition — a well-defined `Mul(Div(Number 1, n+1), Pow(var, n+1))` —
fails: the simplified exponent sum is the zero rational and `expr_div`
reaches `mpq_div` with a zero divisor, the external library's division by
zero (a crash, modelled `.error .divByZero`), not a returned expression. -/
theorem c4_counterexample :
    expr_integrate 10 (.pow (.symbol "x") (.number (-1))) "x" = .error .divByZero := by
  with_unfolding_all rfl

/-- C4 amended: for every rational `n ≠ -1`,
`integrate(Pow(Symbol var, Number n), var)` returns
`Mul(Number (1/(n+1)), Pow(Symbol var, Number (n+1)))` — the exponent sum
`n+1` simplified first, and the coefficient `Div(Number 1, Number (n+1))`
collapsing to the exact rational `1/(n+1)` (for `n = 0` via the `a/1 = a`
branch).  At `n = -1` the code instead divides by the zero rational. -/
theorem c4_integrate_power_amended (fuel : Nat) (n : ℚ) (v : String) (hn : n ≠ -1) :
    expr_integrate (fuel + 4) (.pow (.symbol v) (.number n)) v
      = .ok (.mul (.number (1 / (n + 1))) (.pow (.symbol v) (.number (n + 1)))) := by
  have hne0 : n + 1 ≠ 0 := fun h => hn (by linarith)
  have h4 : fuel + 4 = fuel + 1 + 1 + 1 + 1 := by omega
  rw [h4, expr_integrate_pow_symbol, if_pos rfl, expr_simplify_add,
      expr_simplify_number, ebind_ok, expr_simplify_number, ebind_ok,
      addCascade_numbers, ebind_ok, exprDiv_unfold]
  by_cases h0 : n = 0
  · subst h0
    norm_num [isNumOne]
    simp [ebind_ok]
  · have hne1 : n + 1 ≠ 1 := fun h => h0 (by linarith)
    have hq : (1 : ℚ) ≠ n + 1 := fun h => h0 (by linarith)
    simp [isNumOne, isNumZero, exprEqual, hne1, hne0, hq, ebind_ok]

/-- C4 witness: `n = 3`, giving `(1/4) * x^4`. -/
theorem c4_integrate_power_amended_witness :
    ((3 : ℚ) ≠ -1) ∧
    expr_integrate 4 (.pow (.symbol "x") (.number 3)) "x"
      = .ok (.mul (.number (1 / ((3:ℚ) + 1))) (.pow (.symbol "x") (.number ((3:ℚ) + 1)))) :=
  ⟨by decide, c4_integrate_power_amended 0 3 "x" (by decide)⟩

/-- C5 counterexample: substitution is not total on the eight variants —
on the deferred nodes `Derivative(Symbol "x", "x")` and
`Integral(Symbol "x", "x")` the `switch` has no case and the aborting
`default:` ("Unknown expression type in expr_substitute", `exit(1)`) is
reached, instead of any returned expression. -/
theorem c5_counterexample :
    expr_substitute (.diff (.symbol "x") "x") "x" "3" = .error .unknownType ∧
    expr_substitute (.integral (.symbol "x") "x") "x" "3" = .error .unknownType := by
  refine ⟨?_, ?_⟩ <;> with_unfolding_all rfl

/-- C5 amended: on the six handled variants (Number, Symbol, Add, Mul,
Pow, Call — no Derivative/Integral anywhere), substitution is exactly the
spec's pure structural replacement `substSpec`: every Symbol named
`symbolName` becomes a fresh Number parsed from the literal, everything
else is preserved, and no simplification is performed.  Derivative and
Integral nodes abort. -/
theorem c5_substitute_amended (e : Expr) (s v : String) (q : ℚ) :
    noDeferred e = true → ratParse v = some q →
      expr_substitute e s v = .ok (substSpec e s q) := by
  induction e with
  | number val => intro _ _; simp [expr_substitute, substSpec]
  | symbol n =>
      intro _ hp
      by_cases hn : n = s
      · simp [expr_substitute, substSpec, hn, hp]
      · simp [expr_substitute, substSpec, hn]
  | add l r ihl ihr =>
      intro hnd hp
      simp only [noDeferred, Bool.and_eq_true] at hnd
      simp [expr_substitute, substSpec, ihl hnd.1 hp, ihr hnd.2 hp, ebind_ok]
  | mul l r ihl ihr =>
      intro hnd hp
      simp only [noDeferred, Bool.and_eq_true] at hnd
      simp [expr_substitute, substSpec, ihl hnd.1 hp, ihr hnd.2 hp, ebind_ok]
  | pow b ex ihl ihr =>
      intro hnd hp
      simp only [noDeferred, Bool.and_eq_true] at hnd
      simp [expr_substitute, substSpec, ihl hnd.1 hp, ihr hnd.2 hp, ebind_ok]
  | call fn u ih =>
      intro hnd hp
      simp only [noDeferred] at hnd
      simp [expr_substitute, substSpec, ih hnd hp, ebind_ok]
  | diff inner var ih => intro hnd _; simp [noDeferred] at hnd
  | integral inner var ih => intro hnd _; simp [noDeferred] at hnd
  | invalid => intro hnd _; simp [noDeferred] at hnd

/-- C5 witness: `g = Add(Mul(Number 3/2, Symbol "y"), Call(log, Symbol "y"))`
at `y := "4"` (the spec's own evaluation example). -/
theorem c5_substitute_amended_witness :
    noDeferred (.add (.mul (.number (3/2)) (.symbol "y")) (.call .log (.symbol "y"))) = true ∧
    ratParse "4" = some 4 ∧
    expr_substitute (.add (.mul (.number (3/2)) (.symbol "y")) (.call .log (.symbol "y"))) "y" "4"
      = .ok (substSpec (.add (.mul (.number (3/2)) (.symbol "y")) (.call .log (.symbol "y"))) "y" 4) :=
  ⟨by decide, by with_unfolding_all rfl,
   c5_substitute_amended _ "y" "4" 4 (by decide) (by with_unfolding_all rfl)⟩

namespace Arena

theorem lt_max_ne_invalid {i : Nat} (h : i < MAX_EXPR_COUNT) : i ≠ INVALID_INDEX := by
  intro he; subst he; norm_num [MAX_EXPR_COUNT, INVALID_INDEX] at h

/-- `expr_at` aborts on a free slot. -/
theorem expr_at_free {a : ExprArena} {i : Nat}
    (h2 : (a.pool i).used = false) : expr_at a i = .error .invalidIndex := by
  unfold expr_at
  rw [if_pos (Or.inr (Or.inr h2))]

/-- a successful `expr_at` means the slot is occupied. -/
theorem expr_at_ok_used {a : ExprArena} {i : Nat} {n : NodeData}
    (h : expr_at a i = .ok n) : (a.pool i).used = true := by
  unfold expr_at at h
  split at h
  · cases h
  · rename_i hc
    push_neg at hc
    simpa using hc.2.2

/-- `expr_at` fails only through the `InvalidIndex` abort. -/
theorem expr_at_error {a : ExprArena} {i : Nat} {e : CAbort}
    (h : expr_at a i = .error e) : e = .invalidIndex := by
  unfold expr_at at h
  split at h
  · cases h; rfl
  · cases h

/-- explicit form of a successful allocation. -/
theorem alloc_eq (a : ExprArena) (hfc : a.freeCount ≠ 0) :
    expr_arena_alloc a = .ok
      ({ a with freeCount := a.freeCount - 1,
                pool := fun j => if j = a.freeList (a.freeCount - 1) then ⟨true, .uninit⟩
                                 else a.pool j },
       a.freeList (a.freeCount - 1)) := by
  unfold expr_arena_alloc; rw [if_neg hfc]

end Arena

/-- C9 counterexample: on `sampleArena` (slot 0 occupied by `Symbol "x"`,
slot 1 free) `expr_equal` applied to the distinct handles 0 and 1 does
not return `false`: it aborts through `expr_at`'s `InvalidIndex` path
(`exit(1)`), because the `if (!a || !b) return 0;` guard in the C source
is dead code. -/
theorem c9_counterexample :
    Arena.expr_equal 5 Arena.sampleArena 0 1 = .error .invalidIndex := by
  with_unfolding_all rfl

/-- C9 amended: for distinct handles, a free slot on either side makes
`expr_equal` abort with `InvalidIndex` (through `expr_at`) rather than
return `false`; only *identical* handles — even invalid or free ones —
short-circuit to `true` before any slot is inspected. -/
theorem c9_equal_free_slot_amended :
    (∀ (fuel : Nat) (a : Arena.ExprArena) (i j : Nat),
        i ≠ j →
        ((a.pool i).used = false ∨ (a.pool j).used = false) →
        Arena.expr_equal (fuel + 1) a i j = .error .invalidIndex) ∧
    (∀ (fuel : Nat) (a : Arena.ExprArena) (i : Nat),
        Arena.expr_equal (fuel + 1) a i i = .ok true) := by
  constructor
  · intro fuel a i j hij hfree
    simp only [Arena.expr_equal]
    rw [if_neg hij]
    cases hi : Arena.expr_at a i with
    | error e1 =>
        have := Arena.expr_at_error hi
        subst this
        rfl
    | ok na =>
        have hiu := Arena.expr_at_ok_used hi
        have hj : Arena.expr_at a j = .error .invalidIndex := by
          rcases hfree with h2 | h2
          · rw [hiu] at h2; cases h2
          · exact Arena.expr_at_free h2
        rw [hj]
  · intro fuel a i
    simp [Arena.expr_equal]

/-- C9 witness: distinct handles 0 (occupied) and 1 (free) abort;
handle 7 compared with itself is `true` without inspecting any slot. -/
theorem c9_equal_free_slot_amended_witness :
    (0 : Nat) ≠ 1 ∧
    ((Arena.sampleArena.pool 0).used = false ∨ (Arena.sampleArena.pool 1).used = false) ∧
    Arena.expr_equal 5 Arena.sampleArena 0 1 = .error .invalidIndex ∧
    Arena.expr_equal 5 Arena.sampleArena 7 7 = .ok true :=
  ⟨by decide, Or.inr (by decide),
   c9_equal_free_slot_amended.1 4 Arena.sampleArena 0 1 (by decide) (Or.inr (by decide)),
   c9_equal_free_slot_amended.2 4 Arena.sampleArena 7⟩

/-- C6 counterexample: none of the three conditions produces a typed
failure result returned to the caller — each takes an `exit(1)` path
(modelled as the corresponding `CAbort`): a malformed literal in
`expr_number` ("Invalid rational string"), exhaustion in
`expr_arena_alloc` ("ExprArena out of memory!"), and a free Symbol in
`expr_eval_numeric` ("Cannot evaluate expression with free symbol"). -/
theorem c6_counterexample :
    Arena.expr_number Arena.expr_arena_init "abc" = .error .parseError ∧
    Arena.expr_arena_alloc Arena.exhaustedArena = .error .outOfMemory ∧
    Arena.expr_eval_numeric 3 Arena.sampleArena 0 = .error .freeSymbol := by
  refine ⟨?_, ?_, ?_⟩ <;> with_unfolding_all rfl

/-- C6 amended: each of the three error conditions is detected and
aborts the process with a diagnostic (`exit(1)`), rather than being
surfaced as a typed failure value: `expr_number` on any unparsable
literal (in any well-formed, non-exhausted arena), `expr_arena_alloc` on
any exhausted arena, and `expr_eval_numeric` on any handle holding a
Symbol node. -/
theorem c6_abort_amended :
    (∀ (a : Arena.ExprArena) (s : String), Arena.WF a → a.freeCount ≠ 0 → ratParse s = none →
        Arena.expr_number a s = .error .parseError) ∧
    (∀ a : Arena.ExprArena, a.freeCount = 0 → Arena.expr_arena_alloc a = .error .outOfMemory) ∧
    (∀ (fuel : Nat) (a : Arena.ExprArena) (i : Nat) (nm : String),
        Arena.expr_at a i = .ok (.symbol nm) →
        Arena.expr_eval_numeric (fuel + 1) a i = .error .freeSymbol) := by
  refine ⟨?_, ?_, ?_⟩
  · intro a s hwf hfc hp
    have hlt : a.freeCount - 1 < a.freeCount := Nat.sub_lt (Nat.pos_of_ne_zero hfc) one_pos
    obtain ⟨hidx_lt, _⟩ := hwf.2.1 _ hlt
    have hat : Arena.expr_at
        ({ a with freeCount := a.freeCount - 1,
                  pool := fun j => if j = a.freeList (a.freeCount - 1) then ⟨true, .uninit⟩
                                   else a.pool j } : Arena.ExprArena)
        (a.freeList (a.freeCount - 1)) = .ok .uninit := by
      unfold Arena.expr_at
      rw [if_neg]
      · simp
      · simp [Arena.lt_max_ne_invalid hidx_lt, Nat.not_le.mpr hidx_lt]
    unfold Arena.expr_number
    rw [Arena.alloc_eq a hfc]
    dsimp only
    rw [hat, hp]
  · intro a hfc
    unfold Arena.expr_arena_alloc
    rw [if_pos hfc]
  · intro fuel a i nm h
    simp only [Arena.expr_eval_numeric]
    rw [h]

/-- C6 witness: the three aborts at concrete inputs, through the amended
theorem. -/
theorem c6_abort_amended_witness :
    Arena.WF Arena.sampleArena ∧ Arena.sampleArena.freeCount ≠ 0 ∧ ratParse "abc" = none ∧
    Arena.expr_number Arena.sampleArena "abc" = .error .parseError ∧
    Arena.exhaustedArena.freeCount = 0 ∧
    Arena.expr_arena_alloc Arena.exhaustedArena = .error .outOfMemory ∧
    Arena.expr_at Arena.sampleArena 0 = .ok (.symbol "x") ∧
    Arena.expr_eval_numeric 3 Arena.sampleArena 0 = .error .freeSymbol :=
  ⟨by decide, by decide, by with_unfolding_all rfl,
   c6_abort_amended.1 Arena.sampleArena "abc" (by decide) (by decide) (by with_unfolding_all rfl),
   rfl,
   c6_abort_amended.2.1 Arena.exhaustedArena rfl,
   by with_unfolding_all rfl,
   c6_abort_amended.2.2 2 Arena.sampleArena 0 "x" (by with_unfolding_all rfl)⟩

namespace Arena
theorem frame_refl (a : ExprArena) : Frame a a := fun _ _ => rfl

theorem frame_trans {a b c : ExprArena} (h1 : Frame a b) (h2 : Frame b c) : Frame a c := by
  intro i hi
  have hb := h1 i hi
  have hbu : (b.pool i).used = true := by rw [hb]; exact hi
  rw [h2 i hbu, hb]

theorem fw_trans {a b c : ExprArena} (h1 : Frame a b ∧ WF b) (h2 : Frame b c ∧ WF c) :
    Frame a c ∧ WF c := ⟨frame_trans h1.1 h2.1, h2.2⟩

theorem alloc_spec {a : ExprArena} {a1 : ExprArena} {idx : Nat} (hwf : WF a)
    (h : expr_arena_alloc a = .ok (a1, idx)) :
    Frame a a1 ∧ WF a1 ∧ (a.pool idx).used = false ∧ idx < MAX_EXPR_COUNT ∧
    a1.pool idx = ⟨true, .uninit⟩ := by
  unfold expr_arena_alloc at h
  split at h
  · cases h
  · rename_i hfc
    cases h
    have hlt : a.freeCount - 1 < a.freeCount := Nat.sub_lt (Nat.pos_of_ne_zero hfc) one_pos
    obtain ⟨hidx_lt, hunused⟩ := hwf.2.1 _ hlt
    refine ⟨?_, ⟨le_trans (Nat.sub_le _ _) hwf.1, ?_, ?_⟩, hunused, hidx_lt, ?_⟩
    · intro i hi
      dsimp only
      have hne : i ≠ a.freeList (a.freeCount - 1) := by
        intro he; rw [he, hunused] at hi; cases hi
      rw [if_neg hne]
    · intro j hj
      dsimp only at hj ⊢
      have hj' : j < a.freeCount := lt_of_lt_of_le hj (Nat.sub_le _ _)
      obtain ⟨h1, h2⟩ := hwf.2.1 j hj'
      refine ⟨h1, ?_⟩
      rw [if_neg]
      · exact h2
      · intro he
        have := hwf.2.2 j hj' (a.freeCount - 1) hlt he
        omega
    · intro j hj k hk he
      dsimp only at hj hk he
      exact hwf.2.2 j (lt_of_lt_of_le hj (Nat.sub_le _ _)) k (lt_of_lt_of_le hk (Nat.sub_le _ _)) he
    · dsimp only; rw [if_pos rfl]

theorem writeNode_wf {a : ExprArena} (idx : Nat) (n : NodeData) (hwf : WF a) :
    WF (writeNode a idx n) := by
  unfold writeNode
  refine ⟨hwf.1, ?_, hwf.2.2⟩
  intro j hj
  dsimp only at hj ⊢
  obtain ⟨h1, h2⟩ := hwf.2.1 j hj
  refine ⟨h1, ?_⟩
  split <;> simp [h2]

theorem writeNode_frame_of_unused {a a1 : ExprArena} {idx : Nat} (n : NodeData)
    (hfr : Frame a a1) (hunused : (a.pool idx).used = false) :
    Frame a (writeNode a1 idx n) := by
  intro i hi
  have hne : i ≠ idx := by
    intro he; rw [he, hunused] at hi; cases hi
  unfold writeNode; dsimp only
  rw [if_neg hne]
  exact hfr i hi

theorem allocWrite_spec {a a2 : ExprArena} {r : Nat} (n : NodeData) (hwf : WF a)
    (h : (match expr_arena_alloc a with
          | .error e => .error e
          | .ok (a1, idx) =>
            match expr_at a1 idx with
            | .error e => .error e
            | .ok _ => .ok (writeNode a1 idx n, idx) : Except CAbort (ExprArena × Nat))
         = .ok (a2, r)) :
    Frame a a2 ∧ WF a2 := by
  cases ha : expr_arena_alloc a with
  | error e => rw [ha] at h; cases h
  | ok p =>
    obtain ⟨a1, idx⟩ := p
    rw [ha] at h
    dsimp only at h
    obtain ⟨hfr, hwf1, hunused, _, _⟩ := alloc_spec hwf ha
    cases hat : expr_at a1 idx with
    | error e => rw [hat] at h; cases h
    | ok m =>
      rw [hat] at h
      cases h
      exact ⟨writeNode_frame_of_unused n hfr hunused, writeNode_wf _ n hwf1⟩

theorem expr_symbol_spec {a a2 : ExprArena} {r : Nat} {name : String} (hwf : WF a)
    (h : expr_symbol a name = .ok (a2, r)) : Frame a a2 ∧ WF a2 :=
  allocWrite_spec (.symbol name) hwf h

theorem expr_number_mpq_spec {a a2 : ExprArena} {r : Nat} {q : ℚ} (hwf : WF a)
    (h : expr_number_mpq a q = .ok (a2, r)) : Frame a a2 ∧ WF a2 :=
  allocWrite_spec (.number q) hwf h

theorem expr_add_spec {a a2 : ExprArena} {r l rr : Nat} (hwf : WF a)
    (h : expr_add a l rr = .ok (a2, r)) : Frame a a2 ∧ WF a2 :=
  allocWrite_spec (.add l rr) hwf h

theorem expr_mul_spec {a a2 : ExprArena} {r l rr : Nat} (hwf : WF a)
    (h : expr_mul a l rr = .ok (a2, r)) : Frame a a2 ∧ WF a2 :=
  allocWrite_spec (.mul l rr) hwf h

theorem expr_pow_spec {a a2 : ExprArena} {r l rr : Nat} (hwf : WF a)
    (h : expr_pow a l rr = .ok (a2, r)) : Frame a a2 ∧ WF a2 :=
  allocWrite_spec (.pow l rr) hwf h

theorem expr_func_spec {a a2 : ExprArena} {r u : Nat} {f : FuncType} (hwf : WF a)
    (h : expr_func a f u = .ok (a2, r)) : Frame a a2 ∧ WF a2 :=
  allocWrite_spec (.func f u) hwf h

theorem expr_diff_spec {a a2 : ExprArena} {r u : Nat} {v : String} (hwf : WF a)
    (h : expr_diff a u v = .ok (a2, r)) : Frame a a2 ∧ WF a2 :=
  allocWrite_spec (.diff u v) hwf h

theorem expr_int_spec {a a2 : ExprArena} {r u : Nat} {v : String} (hwf : WF a)
    (h : expr_int a u v = .ok (a2, r)) : Frame a a2 ∧ WF a2 :=
  allocWrite_spec (.integral u v) hwf h

theorem expr_number_spec {a a2 : ExprArena} {r : Nat} {s : String} (hwf : WF a)
    (h : expr_number a s = .ok (a2, r)) : Frame a a2 ∧ WF a2 := by
  unfold expr_number at h
  cases hp : ratParse s with
  | none =>
      rw [hp] at h
      cases ha : expr_arena_alloc a with
      | error e => rw [ha] at h; cases h
      | ok p =>
          obtain ⟨a1, idx⟩ := p
          rw [ha] at h
          dsimp only at h
          cases hat : expr_at a1 idx with
          | error e => rw [hat] at h; cases h
          | ok m => rw [hat] at h; cases h
  | some q =>
      rw [hp] at h
      exact allocWrite_spec (.number q) hwf h

theorem expr_add_numbers_spec {a a2 : ExprArena} {r i j : Nat} (hwf : WF a)
    (h : expr_add_numbers a i j = .ok (a2, r)) : Frame a a2 ∧ WF a2 := by
  unfold expr_add_numbers at h
  cases h1 : expr_at a i with
  | error e => rw [h1] at h; cases h
  | ok na =>
    rw [h1] at h
    cases h2 : expr_at a j with
    | error e => rw [h2] at h; cases h
    | ok nb =>
      rw [h2] at h
      cases na <;> cases nb <;> first
        | (exact allocWrite_spec _ hwf h)
        | cases h

theorem expr_mul_numbers_spec {a a2 : ExprArena} {r i j : Nat} (hwf : WF a)
    (h : expr_mul_numbers a i j = .ok (a2, r)) : Frame a a2 ∧ WF a2 := by
  unfold expr_mul_numbers at h
  cases h1 : expr_at a i with
  | error e => rw [h1] at h; cases h
  | ok na =>
    rw [h1] at h
    cases h2 : expr_at a j with
    | error e => rw [h2] at h; cases h
    | ok nb =>
      rw [h2] at h
      cases na <;> cases nb <;> first
        | (exact allocWrite_spec _ hwf h)
        | cases h



theorem expr_differentiate_spec : ∀ (fuel : Nat) (a : ExprArena) (idx : Nat) (v : String)
    {a2 : ExprArena} {r : Nat}, WF a → expr_differentiate fuel a idx v = .ok (a2, r) →
    Frame a a2 ∧ WF a2 := by
  intro fuel
  induction fuel with
  | zero => intro a idx v a2 r hwf h; simp [expr_differentiate] at h
  | succ f ih =>
    intro a idx v a2 r hwf h
    simp only [expr_differentiate] at h
    cases hat : expr_at a idx with
    | error e => rw [hat] at h; cases h
    | ok n =>
      rw [hat] at h
      cases n with
      | number q => dsimp only at h; exact expr_number_spec hwf h
      | symbol nm =>
          dsimp only at h
          split at h
          · exact expr_number_spec hwf h
          · exact expr_number_spec hwf h
      | add l rr =>
          dsimp only at h
          cases h1 : expr_differentiate f a l v with
          | error e => rw [h1] at h; cases h
          | ok p =>
            obtain ⟨b1, left⟩ := p
            rw [h1] at h; dsimp only at h
            have F1 := ih a l v hwf h1
            cases h2 : expr_differentiate f b1 rr v with
            | error e => rw [h2] at h; cases h
            | ok p2 =>
              obtain ⟨b2, right⟩ := p2
              rw [h2] at h; dsimp only at h
              have F2 := ih b1 rr v F1.2 h2
              exact fw_trans (fw_trans F1 F2) (expr_add_spec F2.2 h)
      | mul ff gg =>
          dsimp only at h
          cases h1 : expr_differentiate f a ff v with
          | error e => rw [h1] at h; cases h
          | ok p =>
            obtain ⟨b1, df⟩ := p
            rw [h1] at h; dsimp only at h
            have F1 := ih a ff v hwf h1
            cases h2 : expr_differentiate f b1 gg v with
            | error e => rw [h2] at h; cases h
            | ok p2 =>
              obtain ⟨b2, dg⟩ := p2
              rw [h2] at h; dsimp only at h
              have F2 := ih b1 gg v F1.2 h2
              cases h3 : expr_mul b2 df gg with
              | error e => rw [h3] at h; cases h
              | ok p3 =>
                obtain ⟨b3, lt⟩ := p3
                rw [h3] at h; dsimp only at h
                have F3 := expr_mul_spec F2.2 h3
                cases h4 : expr_mul b3 ff dg with
                | error e => rw [h4] at h; cases h
                | ok p4 =>
                  obtain ⟨b4, rt⟩ := p4
                  rw [h4] at h; dsimp only at h
                  have F4 := expr_mul_spec F3.2 h4
                  exact fw_trans (fw_trans (fw_trans (fw_trans F1 F2) F3) F4)
                    (expr_add_spec F4.2 h)
      | pow base exponent =>
          dsimp only at h
          cases hex : expr_at a exponent with
          | error e => rw [hex] at h; cases h
          | ok nex =>
            rw [hex] at h
            dsimp only at h
            cases nex with
            | number nq =>
                dsimp only at h
                cases hb : expr_at a base with
                | error e => rw [hb] at h; cases h
                | ok nb =>
                  rw [hb] at h
                  dsimp only at h
                  cases nb with
                  | symbol nm =>
                      dsimp only at h
                      split at h
                      · cases h1 : expr_number_mpq a (nq - 1) with
                        | error e => rw [h1] at h; cases h
                        | ok p =>
                          obtain ⟨b1, nei⟩ := p
                          rw [h1] at h; dsimp only at h
                          have F1 := expr_number_mpq_spec hwf h1
                          cases h2 : expr_pow b1 base nei with
                          | error e => rw [h2] at h; cases h
                          | ok p2 =>
                            obtain ⟨b2, xp⟩ := p2
                            rw [h2] at h; dsimp only at h
                            have F2 := expr_pow_spec F1.2 h2
                            cases h3 : expr_number_mpq b2 nq with
                            | error e => rw [h3] at h; cases h
                            | ok p3 =>
                              obtain ⟨b3, cf⟩ := p3
                              rw [h3] at h; dsimp only at h
                              have F3 := expr_number_mpq_spec F2.2 h3
                              exact fw_trans (fw_trans (fw_trans F1 F2) F3)
                                (expr_mul_spec F3.2 h)
                      · cases h; exact ⟨frame_refl a, hwf⟩
                  | number q2 => dsimp only at h; cases h; exact ⟨frame_refl a, hwf⟩
                  | add x y => dsimp only at h; cases h; exact ⟨frame_refl a, hwf⟩
                  | mul x y => dsimp only at h; cases h; exact ⟨frame_refl a, hwf⟩
                  | pow x y => dsimp only at h; cases h; exact ⟨frame_refl a, hwf⟩
                  | func x y => dsimp only at h; cases h; exact ⟨frame_refl a, hwf⟩
                  | diff x y => dsimp only at h; cases h; exact ⟨frame_refl a, hwf⟩
                  | integral x y => dsimp only at h; cases h; exact ⟨frame_refl a, hwf⟩
                  | uninit => dsimp only at h; cases h; exact ⟨frame_refl a, hwf⟩
            | symbol nm => dsimp only at h; cases h; exact ⟨frame_refl a, hwf⟩
            | add x y => dsimp only at h; cases h; exact ⟨frame_refl a, hwf⟩
            | mul x y => dsimp only at h; cases h; exact ⟨frame_refl a, hwf⟩
            | pow x y => dsimp only at h; cases h; exact ⟨frame_refl a, hwf⟩
            | func x y => dsimp only at h; cases h; exact ⟨frame_refl a, hwf⟩
            | diff x y => dsimp only at h; cases h; exact ⟨frame_refl a, hwf⟩
            | integral x y => dsimp only at h; cases h; exact ⟨frame_refl a, hwf⟩
            | uninit => dsimp only at h; cases h; exact ⟨frame_refl a, hwf⟩
      | func fn u =>
          dsimp only at h
          cases h1 : expr_differentiate f a u v with
          | error e => rw [h1] at h; cases h
          | ok p =>
            obtain ⟨b1, du⟩ := p
            rw [h1] at h; dsimp only at h
            have F1 := ih a u v hwf h1
            cases fn with
            | sin =>
                cases h2 : expr_func b1 .cos u with
                | error e => rw [h2] at h; cases h
                | ok p2 =>
                  obtain ⟨b2, cu⟩ := p2
                  rw [h2] at h; dsimp only at h
                  have F2 := expr_func_spec F1.2 h2
                  exact fw_trans (fw_trans F1 F2) (expr_mul_spec F2.2 h)
            | cos =>
                cases h2 : expr_func b1 .sin u with
                | error e => rw [h2] at h; cases h
                | ok p2 =>
                  obtain ⟨b2, su⟩ := p2
                  rw [h2] at h; dsimp only at h
                  have F2 := expr_func_spec F1.2 h2
                  cases h3 : expr_number b2 "-1" with
                  | error e => rw [h3] at h; cases h
                  | ok p3 =>
                    obtain ⟨b3, n1⟩ := p3
                    rw [h3] at h; dsimp only at h
                    have F3 := expr_number_spec F2.2 h3
                    cases h4 : expr_mul b3 n1 su with
                    | error e => rw [h4] at h; cases h
                    | ok p4 =>
                      obtain ⟨b4, ns⟩ := p4
                      rw [h4] at h; dsimp only at h
                      have F4 := expr_mul_spec F3.2 h4
                      exact fw_trans (fw_trans (fw_trans (fw_trans F1 F2) F3) F4)
                        (expr_mul_spec F4.2 h)
            | exp =>
                cases h2 : expr_func b1 .exp u with
                | error e => rw [h2] at h; cases h
                | ok p2 =>
                  obtain ⟨b2, eu⟩ := p2
                  rw [h2] at h; dsimp only at h
                  have F2 := expr_func_spec F1.2 h2
                  exact fw_trans (fw_trans F1 F2) (expr_mul_spec F2.2 h)
            | log =>
                cases h2 : expr_number b1 "-1" with
                | error e => rw [h2] at h; cases h
                | ok p2 =>
                  obtain ⟨b2, n1⟩ := p2
                  rw [h2] at h; dsimp only at h
                  have F2 := expr_number_spec F1.2 h2
                  cases h3 : expr_pow b2 u n1 with
                  | error e => rw [h3] at h; cases h
                  | ok p3 =>
                    obtain ⟨b3, rec1⟩ := p3
                    rw [h3] at h; dsimp only at h
                    have F3 := expr_pow_spec F2.2 h3
                    exact fw_trans (fw_trans (fw_trans F1 F2) F3)
                      (expr_mul_spec F3.2 h)
      | diff x y => dsimp only at h; cases h
      | integral x y => dsimp only at h; cases h
      | uninit => dsimp only at h; cases h



theorem expr_substitute_spec : ∀ (fuel : Nat) (a : ExprArena) (idx : Nat) (sn vs : String)
    {a2 : ExprArena} {r : Nat}, WF a → expr_substitute fuel a idx sn vs = .ok (a2, r) →
    Frame a a2 ∧ WF a2 := by
  intro fuel
  induction fuel with
  | zero => intro a idx sn vs a2 r hwf h; simp [expr_substitute] at h
  | succ f ih =>
    intro a idx sn vs a2 r hwf h
    simp only [expr_substitute] at h
    cases hat : expr_at a idx with
    | error e => rw [hat] at h; cases h
    | ok n =>
      rw [hat] at h
      dsimp only at h
      cases n with
      | number q => dsimp only at h; cases h; exact ⟨frame_refl a, hwf⟩
      | symbol nm =>
          dsimp only at h
          split at h
          · exact expr_number_spec hwf h
          · cases h; exact ⟨frame_refl a, hwf⟩
      | add l rr =>
          dsimp only at h
          cases h1 : expr_substitute f a l sn vs with
          | error e => rw [h1] at h; cases h
          | ok p =>
            obtain ⟨b1, left⟩ := p
            rw [h1] at h; dsimp only at h
            have F1 := ih a l sn vs hwf h1
            cases h2 : expr_substitute f b1 rr sn vs with
            | error e => rw [h2] at h; cases h
            | ok p2 =>
              obtain ⟨b2, right⟩ := p2
              rw [h2] at h; dsimp only at h
              have F2 := ih b1 rr sn vs F1.2 h2
              exact fw_trans (fw_trans F1 F2) (expr_add_spec F2.2 h)
      | mul l rr =>
          dsimp only at h
          cases h1 : expr_substitute f a l sn vs with
          | error e => rw [h1] at h; cases h
          | ok p =>
            obtain ⟨b1, left⟩ := p
            rw [h1] at h; dsimp only at h
            have F1 := ih a l sn vs hwf h1
            cases h2 : expr_substitute f b1 rr sn vs with
            | error e => rw [h2] at h; cases h
            | ok p2 =>
              obtain ⟨b2, right⟩ := p2
              rw [h2] at h; dsimp only at h
              have F2 := ih b1 rr sn vs F1.2 h2
              exact fw_trans (fw_trans F1 F2) (expr_mul_spec F2.2 h)
      | pow l rr =>
          dsimp only at h
          cases h1 : expr_substitute f a l sn vs with
          | error e => rw [h1] at h; cases h
          | ok p =>
            obtain ⟨b1, base⟩ := p
            rw [h1] at h; dsimp only at h
            have F1 := ih a l sn vs hwf h1
            cases h2 : expr_substitute f b1 rr sn vs with
            | error e => rw [h2] at h; cases h
            | ok p2 =>
              obtain ⟨b2, exponent⟩ := p2
              rw [h2] at h; dsimp only at h
              have F2 := ih b1 rr sn vs F1.2 h2
              exact fw_trans (fw_trans F1 F2) (expr_pow_spec F2.2 h)
      | func fn u =>
          dsimp only at h
          cases h1 : expr_substitute f a u sn vs with
          | error e => rw [h1] at h; cases h
          | ok p =>
            obtain ⟨b1, arg⟩ := p
            rw [h1] at h; dsimp only at h
            have F1 := ih a u sn vs hwf h1
            exact fw_trans F1 (expr_func_spec F1.2 h)
      | diff x y => dsimp only at h; cases h
      | integral x y => dsimp only at h; cases h
      | uninit => dsimp only at h; cases h



set_option maxHeartbeats 1000000 in
theorem sid_spec : ∀ (fuel : Nat),
    (∀ (a : ExprArena) (idx : Nat) {a2 : ExprArena} {r : Nat}, WF a →
        expr_simplify fuel a idx = .ok (a2, r) → Frame a a2 ∧ WF a2) ∧
    (∀ (a : ExprArena) (idx : Nat) (v : String) {a2 : ExprArena} {r : Nat}, WF a →
        expr_integrate fuel a idx v = .ok (a2, r) → Frame a a2 ∧ WF a2) ∧
    (∀ (a : ExprArena) (num den : Nat) {a2 : ExprArena} {r : Nat}, WF a →
        expr_div fuel a num den = .ok (a2, r) → Frame a a2 ∧ WF a2) := by
  intro fuel
  induction fuel with
  | zero =>
      refine ⟨?_, ?_, ?_⟩
      · intro a idx a2 r _ h; simp [expr_simplify] at h
      · intro a idx v a2 r _ h; simp [expr_integrate] at h
      · intro a num den a2 r _ h; simp [expr_div] at h
  | succ f ih =>
    obtain ⟨ihS, ihI, ihD⟩ := ih
    refine ⟨?_, ?_, ?_⟩
    · -- expr_simplify
      intro a idx a2 r hwf h
      simp only [expr_simplify] at h
      cases hat : expr_at a idx with
      | error e => rw [hat] at h; cases h
      | ok n =>
        rw [hat] at h
        dsimp only at h
        cases n with
        | number q => dsimp only at h; cases h; exact ⟨frame_refl a, hwf⟩
        | symbol nm => dsimp only at h; cases h; exact ⟨frame_refl a, hwf⟩
        | add l rr =>
            dsimp only at h
            cases h1 : expr_simplify f a l with
            | error e => rw [h1] at h; cases h
            | ok p =>
              obtain ⟨b1, left⟩ := p
              rw [h1] at h; dsimp only at h
              have F1 := ihS a l hwf h1
              cases h2 : expr_simplify f b1 rr with
              | error e => rw [h2] at h; cases h
              | ok p2 =>
                obtain ⟨b2, right⟩ := p2
                rw [h2] at h; dsimp only at h
                have F2 := fw_trans F1 (ihS b1 rr F1.2 h2)
                cases h3 : expr_at b2 left with
                | error e => rw [h3] at h; cases h
                | ok nl =>
                  rw [h3] at h; dsimp only at h
                  cases h4 : expr_at b2 right with
                  | error e => rw [h4] at h; cases h
                  | ok nr =>
                    rw [h4] at h; dsimp only at h
                    split at h
                    · -- both numbers: expr_add_numbers
                      exact fw_trans F2 (expr_add_numbers_spec F2.2 h)
                    · -- fallthrough: the if-chain
                      split at h
                      · exact fw_trans F2 (ihS b2 right F2.2 h)
                      · split at h
                        · exact fw_trans F2 (ihS b2 left F2.2 h)
                        · split at h
                          · -- reorder: expr_add then simplify
                            rename_i hcond
                            cases h5 : expr_add b2 right left with
                            | error e => rw [h5] at h; cases h
                            | ok p5 =>
                              obtain ⟨b3, sw⟩ := p5
                              rw [h5] at h; dsimp only at h
                              have F3 := fw_trans F2 (expr_add_spec F2.2 h5)
                              exact fw_trans F3 (ihS b3 sw F3.2 h)
                          · -- like-term / keep
                            split at h
                            · -- nl = mul c x1, nr = mul b x2
                              cases he : expr_equal f b2 _ _ with
                              | error e => rw [he] at h; cases h
                              | ok bv =>
                                rw [he] at h
                                cases bv with
                                | true =>
                                    dsimp only at h
                                    cases h5 : expr_add b2 _ _ with
                                    | error e => rw [h5] at h; cases h
                                    | ok p5 =>
                                      obtain ⟨b3, cb⟩ := p5
                                      rw [h5] at h; dsimp only at h
                                      have F3 := fw_trans F2 (expr_add_spec F2.2 h5)
                                      cases h6 : expr_simplify f b3 cb with
                                      | error e => rw [h6] at h; cases h
                                      | ok p6 =>
                                        obtain ⟨b4, sum⟩ := p6
                                        rw [h6] at h; dsimp only at h
                                        have F4 := fw_trans F3 (ihS b3 cb F3.2 h6)
                                        exact fw_trans F4 (expr_mul_spec F4.2 h)
                                | false =>
                                    dsimp only at h
                                    exact fw_trans F2 (expr_add_spec F2.2 h)
                            · exact fw_trans F2 (expr_add_spec F2.2 h)
        | mul l rr =>
            dsimp only at h
            cases h1 : expr_simplify f a l with
            | error e => rw [h1] at h; cases h
            | ok p =>
              obtain ⟨b1, left⟩ := p
              rw [h1] at h; dsimp only at h
              have F1 := ihS a l hwf h1
              cases h2 : expr_simplify f b1 rr with
              | error e => rw [h2] at h; cases h
              | ok p2 =>
                obtain ⟨b2, right⟩ := p2
                rw [h2] at h; dsimp only at h
                have F2 := fw_trans F1 (ihS b1 rr F1.2 h2)
                cases h3 : expr_at b2 left with
                | error e => rw [h3] at h; cases h
                | ok nl =>
                  rw [h3] at h; dsimp only at h
                  cases h4 : expr_at b2 right with
                  | error e => rw [h4] at h; cases h
                  | ok nr =>
                    rw [h4] at h; dsimp only at h
                    split at h
                    · exact fw_trans F2 (expr_mul_numbers_spec F2.2 h)
                    · split at h
                      · exact fw_trans F2 (ihS b2 right F2.2 h)
                      · split at h
                        · exact fw_trans F2 (expr_number_spec F2.2 h)
                        · split at h
                          · cases h5 : expr_mul b2 right left with
                            | error e => rw [h5] at h; cases h
                            | ok p5 =>
                              obtain ⟨b3, sw⟩ := p5
                              rw [h5] at h; dsimp only at h
                              have F3 := fw_trans F2 (expr_mul_spec F2.2 h5)
                              exact fw_trans F3 (ihS b3 sw F3.2 h)
                          · split at h
                            · -- number * (mul rl rr2): merge then reassociate, re-simplify
                              split at h
                              · cases h
                              · rename_i nrl hatr
                                split at h
                                · cases h
                                · rename_i b3 merged heq
                                  have F3 : Frame a b3 ∧ WF b3 := by
                                    cases nrl <;>
                                      first
                                        | exact fw_trans F2 (expr_mul_numbers_spec F2.2 heq)
                                        | exact fw_trans F2 (expr_mul_spec F2.2 heq)
                                  split at h
                                  · cases h
                                  · rename_i b4 newmul heq2
                                    have F4 := fw_trans F3 (expr_mul_spec F3.2 heq2)
                                    exact fw_trans F4 (ihS b4 newmul F4.2 h)
                            · -- number * (add rl rr2): distribute, re-simplify
                              split at h
                              · cases h
                              · rename_i nrl hatr
                                split at h
                                · cases h
                                · rename_i b3 merged heq
                                  have F3 : Frame a b3 ∧ WF b3 := by
                                    cases nrl <;>
                                      first
                                        | exact fw_trans F2 (expr_mul_numbers_spec F2.2 heq)
                                        | exact fw_trans F2 (expr_mul_spec F2.2 heq)
                                  split at h
                                  · cases h
                                  · rename_i b4 rightright heq2
                                    have F4 := fw_trans F3 (expr_mul_spec F3.2 heq2)
                                    split at h
                                    · cases h
                                    · rename_i b5 newadd heq3
                                      have F5 := fw_trans F4 (expr_add_spec F4.2 heq3)
                                      exact fw_trans F5 (ihS b5 newadd F5.2 h)
                            · -- x*x → square / pow-merge / keep
                              split at h
                              · cases h
                              · -- expr_equal returned true: square and re-simplify
                                split at h
                                · cases h
                                · rename_i b3 two heq
                                  have F3 := fw_trans F2 (expr_number_spec F2.2 heq)
                                  split at h
                                  · cases h
                                  · rename_i b4 sq heq2
                                    have F4 := fw_trans F3 (expr_pow_spec F3.2 heq2)
                                    exact fw_trans F4 (ihS b4 sq F4.2 h)
                              · -- expr_equal false: pow-merge or keep
                                split at h
                                · split at h
                                  · cases h
                                  · -- bases equal: merge exponents
                                    split at h
                                    · cases h
                                    · rename_i b3 es heq
                                      have F3 := fw_trans F2 (expr_add_spec F2.2 heq)
                                      split at h
                                      · cases h
                                      · rename_i b4 exp_sum heq2
                                        have F4 := fw_trans F3 (ihS b3 es F3.2 heq2)
                                        exact fw_trans F4 (expr_pow_spec F4.2 h)
                                  · exact fw_trans F2 (expr_mul_spec F2.2 h)
                                · exact fw_trans F2 (expr_mul_spec F2.2 h)
        | pow l rr =>
            dsimp only at h
            cases h1 : expr_simplify f a l with
            | error e => rw [h1] at h; cases h
            | ok p =>
              obtain ⟨b1, base⟩ := p
              rw [h1] at h; dsimp only at h
              have F1 := ihS a l hwf h1
              cases h2 : expr_simplify f b1 rr with
              | error e => rw [h2] at h; cases h
              | ok p2 =>
                obtain ⟨b2, exponent⟩ := p2
                rw [h2] at h; dsimp only at h
                have F2 := fw_trans F1 (ihS b1 rr F1.2 h2)
                cases h3 : expr_at b2 exponent with
                | error e => rw [h3] at h; cases h
                | ok nex =>
                  rw [h3] at h; dsimp only at h
                  split at h
                  · exact fw_trans F2 (expr_number_spec F2.2 h)
                  · split at h
                    · exact fw_trans F2 (ihS b2 base F2.2 h)
                    · cases h4 : expr_at b2 base with
                      | error e => rw [h4] at h; cases h
                      | ok nb =>
                        rw [h4] at h; dsimp only at h
                        split at h
                        · exact fw_trans F2 (expr_number_spec F2.2 h)
                        · split at h
                          · exact fw_trans F2 (expr_number_spec F2.2 h)
                          · exact fw_trans F2 (expr_pow_spec F2.2 h)
        | func fn u =>
            dsimp only at h
            cases h1 : expr_simplify f a u with
            | error e => rw [h1] at h; cases h
            | ok p =>
              obtain ⟨b1, arg⟩ := p
              rw [h1] at h; dsimp only at h
              have F1 := ihS a u hwf h1
              exact fw_trans F1 (expr_func_spec F1.2 h)
        | diff inner var =>
            dsimp only at h
            cases h1 : expr_simplify f a inner with
            | error e => rw [h1] at h; cases h
            | ok p =>
              obtain ⟨b1, si⟩ := p
              rw [h1] at h; dsimp only at h
              have F1 := ihS a inner hwf h1
              cases h2 : expr_differentiate f b1 si var with
              | error e => rw [h2] at h; cases h
              | ok p2 =>
                obtain ⟨b2, attempted⟩ := p2
                rw [h2] at h; dsimp only at h
                have F2 := fw_trans F1 (expr_differentiate_spec f b1 si var F1.2 h2)
                split at h
                · exact fw_trans F2 (expr_diff_spec F2.2 h)
                · exact fw_trans F2 (ihS b2 attempted F2.2 h)
        | integral inner var =>
            dsimp only at h
            cases h1 : expr_simplify f a inner with
            | error e => rw [h1] at h; cases h
            | ok p =>
              obtain ⟨b1, si⟩ := p
              rw [h1] at h; dsimp only at h
              have F1 := ihS a inner hwf h1
              cases h2 : expr_integrate f b1 si var with
              | error e => rw [h2] at h; cases h
              | ok p2 =>
                obtain ⟨b2, attempted⟩ := p2
                rw [h2] at h; dsimp only at h
                have F2 := fw_trans F1 (ihI b1 si var F1.2 h2)
                split at h
                · exact fw_trans F2 (expr_int_spec F2.2 h)
                · exact fw_trans F2 (ihS b2 attempted F2.2 h)
        | uninit => dsimp only at h; cases h
    · -- expr_integrate
      intro a idx v a2 r hwf h
      simp only [expr_integrate] at h
      cases hat : expr_at a idx with
      | error e => rw [hat] at h; cases h
      | ok n =>
        rw [hat] at h
        dsimp only at h
        cases n with
        | number q =>
            dsimp only at h
            cases h1 : expr_symbol a v with
            | error e => rw [h1] at h; cases h
            | ok p =>
              obtain ⟨b1, sym⟩ := p
              rw [h1] at h; dsimp only at h
              have F1 := expr_symbol_spec hwf h1
              exact fw_trans F1 (expr_mul_spec F1.2 h)
        | symbol s =>
            dsimp only at h
            split at h
            · -- s = v: (1/2) * x^2
              cases h1 : expr_number a "1/2" with
              | error e => rw [h1] at h; cases h
              | ok p =>
                obtain ⟨b1, half⟩ := p
                rw [h1] at h; dsimp only at h
                have F1 := expr_number_spec hwf h1
                cases h2 : expr_symbol b1 v with
                | error e => rw [h2] at h; cases h
                | ok p2 =>
                  obtain ⟨b2, sym⟩ := p2
                  rw [h2] at h; dsimp only at h
                  have F2 := fw_trans F1 (expr_symbol_spec F1.2 h2)
                  cases h3 : expr_number b2 "2" with
                  | error e => rw [h3] at h; cases h
                  | ok p3 =>
                    obtain ⟨b3, two⟩ := p3
                    rw [h3] at h; dsimp only at h
                    have F3 := fw_trans F2 (expr_number_spec F2.2 h3)
                    cases h4 : expr_pow b3 sym two with
                    | error e => rw [h4] at h; cases h
                    | ok p4 =>
                      obtain ⟨b4, pw⟩ := p4
                      rw [h4] at h; dsimp only at h
                      have F4 := fw_trans F3 (expr_pow_spec F3.2 h4)
                      exact fw_trans F4 (expr_mul_spec F4.2 h)
            · cases h1 : expr_symbol a v with
              | error e => rw [h1] at h; cases h
              | ok p =>
                obtain ⟨b1, sym⟩ := p
                rw [h1] at h; dsimp only at h
                have F1 := expr_symbol_spec hwf h1
                exact fw_trans F1 (expr_mul_spec F1.2 h)
        | add l rr =>
            dsimp only at h
            cases h1 : expr_integrate f a l v with
            | error e => rw [h1] at h; cases h
            | ok p =>
              obtain ⟨b1, left⟩ := p
              rw [h1] at h; dsimp only at h
              have F1 := ihI a l v hwf h1
              cases h2 : expr_integrate f b1 rr v with
              | error e => rw [h2] at h; cases h
              | ok p2 =>
                obtain ⟨b2, right⟩ := p2
                rw [h2] at h; dsimp only at h
                have F2 := fw_trans F1 (ihI b1 rr v F1.2 h2)
                exact fw_trans F2 (expr_add_spec F2.2 h)
        | mul ff gg =>
            dsimp only at h
            cases h1 : expr_at a ff with
            | error e => rw [h1] at h; cases h
            | ok nf =>
              rw [h1] at h; dsimp only at h
              split at h
              · -- left factor is a Number
                rename_i q
                split at h
                · cases h
                · rename_i b1 inner heq
                  have F1 := ihI a gg v hwf heq
                  exact fw_trans F1 (expr_mul_spec F1.2 h)
              · cases h; exact ⟨frame_refl a, hwf⟩
        | pow bidx eidx =>
            dsimp only at h
            cases h1 : expr_at a eidx with
            | error e => rw [h1] at h; cases h
            | ok nex =>
              rw [h1] at h; dsimp only at h
              split at h
              · -- exponent is a Number
                cases h2 : expr_at a bidx with
                | error e => rw [h2] at h; cases h
                | ok nb =>
                  rw [h2] at h; dsimp only at h
                  split at h
                  · -- base is a Symbol
                    split at h
                    · -- matching variable
                      cases h3 : expr_number a "1" with
                      | error e => rw [h3] at h; cases h
                      | ok p3 =>
                        obtain ⟨b1, one⟩ := p3
                        rw [h3] at h; dsimp only at h
                        have F1 := expr_number_spec hwf h3
                        cases h4 : expr_add b1 eidx one with
                        | error e => rw [h4] at h; cases h
                        | ok p4 =>
                          obtain ⟨b2, ne0⟩ := p4
                          rw [h4] at h; dsimp only at h
                          have F2 := fw_trans F1 (expr_add_spec F1.2 h4)
                          cases h5 : expr_simplify f b2 ne0 with
                          | error e => rw [h5] at h; cases h
                          | ok p5 =>
                            obtain ⟨b3, new_exp⟩ := p5
                            rw [h5] at h; dsimp only at h
                            have F3 := fw_trans F2 (ihS b2 ne0 F2.2 h5)
                            cases h6 : expr_pow b3 bidx new_exp with
                            | error e => rw [h6] at h; cases h
                            | ok p6 =>
                              obtain ⟨b4, pow_expr⟩ := p6
                              rw [h6] at h; dsimp only at h
                              have F4 := fw_trans F3 (expr_pow_spec F3.2 h6)
                              cases h7 : expr_div f b4 one new_exp with
                              | error e => rw [h7] at h; cases h
                              | ok p7 =>
                                obtain ⟨b5, coeff⟩ := p7
                                rw [h7] at h; dsimp only at h
                                have F5 := fw_trans F4 (ihD b4 one new_exp F4.2 h7)
                                exact fw_trans F5 (expr_mul_spec F5.2 h)
                    · cases h; exact ⟨frame_refl a, hwf⟩
                  · cases h; exact ⟨frame_refl a, hwf⟩
              · cases h; exact ⟨frame_refl a, hwf⟩
        | func fn u =>
            dsimp only at h
            cases h1 : expr_at a u with
            | error e => rw [h1] at h; cases h
            | ok nu =>
              rw [h1] at h; dsimp only at h
              split at h
              · -- argument is a Symbol
                split at h
                · -- matching variable
                  cases fn with
                  | sin =>
                      dsimp only at h
                      cases h2 : expr_func a .cos u with
                      | error e => rw [h2] at h; cases h
                      | ok p2 =>
                        obtain ⟨b1, cu⟩ := p2
                        rw [h2] at h; dsimp only at h
                        have F1 := expr_func_spec hwf h2
                        cases h3 : expr_number b1 "-1" with
                        | error e => rw [h3] at h; cases h
                        | ok p3 =>
                          obtain ⟨b2, n1⟩ := p3
                          rw [h3] at h; dsimp only at h
                          have F2 := fw_trans F1 (expr_number_spec F1.2 h3)
                          exact fw_trans F2 (expr_mul_spec F2.2 h)
                  | cos => exact expr_func_spec hwf h
                  | exp => exact expr_func_spec hwf h
                  | log =>
                      dsimp only at h
                      cases h2 : expr_number a "-1" with
                      | error e => rw [h2] at h; cases h
                      | ok p2 =>
                        obtain ⟨b1, n1⟩ := p2
                        rw [h2] at h; dsimp only at h
                        have F1 := expr_number_spec hwf h2
                        exact fw_trans F1 (expr_pow_spec F1.2 h)
                · cases h
              · cases h
        | diff x y => dsimp only at h; cases h
        | integral x y => dsimp only at h; cases h
        | uninit => dsimp only at h; cases h
    · -- expr_div
      intro a num den a2 r hwf h
      simp only [expr_div] at h
      split at h
      · cases h; exact ⟨frame_refl a, hwf⟩
      · cases h1 : expr_at a num with
        | error e => rw [h1] at h; cases h
        | ok nn =>
          rw [h1] at h; dsimp only at h
          cases h2 : expr_at a den with
          | error e => rw [h2] at h; cases h
          | ok nd =>
            rw [h2] at h; dsimp only at h
            split at h
            · cases h; exact ⟨frame_refl a, hwf⟩
            · split at h
              · exact expr_number_spec hwf h
              · split at h
                · cases h
                · -- expr_equal returned true: a / a = 1
                  exact expr_number_spec hwf h
                · -- expr_equal returned false
                  split at h
                  · -- both numeric
                    split at h
                    · cases h
                    · exact expr_number_mpq_spec hwf h
                  · -- a * b^(-1), re-simplified
                    cases h3 : expr_number a "-1" with
                    | error e => rw [h3] at h; cases h
                    | ok p3 =>
                      obtain ⟨b1, m1⟩ := p3
                      rw [h3] at h; dsimp only at h
                      have F1 := expr_number_spec hwf h3
                      cases h4 : expr_pow b1 den m1 with
                      | error e => rw [h4] at h; cases h
                      | ok p4 =>
                        obtain ⟨b2, recp⟩ := p4
                        rw [h4] at h; dsimp only at h
                        have F2 := fw_trans F1 (expr_pow_spec F1.2 h4)
                        cases h5 : expr_mul b2 num recp with
                        | error e => rw [h5] at h; cases h
                        | ok p5 =>
                          obtain ⟨b3, res⟩ := p5
                          rw [h5] at h; dsimp only at h
                          have F3 := fw_trans F2 (expr_mul_spec F2.2 h5)
                          exact fw_trans F3 (ihS b3 res F3.2 h)
end Arena
/-- C10: no in-place mutation.  For every well-formed arena and every
operation of the API (the raw constructors, the number-combination
helpers, substitution, the differentiator, the simplifier, the
integrator and `expr_div`), every arena node occupied before the call
keeps exactly its slot contents — variant tag and payload (rational
value, name string, child handles, function kind, variable name) —
after a successful call; operations only ever write freshly allocated
slots.  `expr_equal` and `expr_eval_numeric` return no arena: they are
read-only by construction. -/
theorem c10_no_in_place_mutation :
    ∀ a : Arena.ExprArena, Arena.WF a → Arena.NoMutationSpec a := by
  intro a hwf
  refine ⟨?_, ?_, ?_, ?_, ?_, ?_, ?_, ?_, ?_, ?_, ?_, ?_, ?_, ?_, ?_, ?_⟩
  · intro s a2 r h; exact (Arena.expr_number_spec hwf h).1
  · intro q a2 r h; exact (Arena.expr_number_mpq_spec hwf h).1
  · intro nm a2 r h; exact (Arena.expr_symbol_spec hwf h).1
  · intro l rr a2 r h; exact (Arena.expr_add_spec hwf h).1
  · intro l rr a2 r h; exact (Arena.expr_mul_spec hwf h).1
  · intro l rr a2 r h; exact (Arena.expr_pow_spec hwf h).1
  · intro fn u a2 r h; exact (Arena.expr_func_spec hwf h).1
  · intro u v a2 r h; exact (Arena.expr_diff_spec hwf h).1
  · intro u v a2 r h; exact (Arena.expr_int_spec hwf h).1
  · intro i j a2 r h; exact (Arena.expr_add_numbers_spec hwf h).1
  · intro i j a2 r h; exact (Arena.expr_mul_numbers_spec hwf h).1
  · intro fuel i sn vs a2 r h; exact (Arena.expr_substitute_spec fuel a i sn vs hwf h).1
  · intro fuel i v a2 r h; exact (Arena.expr_differentiate_spec fuel a i v hwf h).1
  · intro fuel i a2 r h; exact ((Arena.sid_spec fuel).1 a i hwf h).1
  · intro fuel i v a2 r h; exact ((Arena.sid_spec fuel).2.1 a i v hwf h).1
  · intro fuel i j a2 r h; exact ((Arena.sid_spec fuel).2.2 a i j hwf h).1

/-- C10 witness: the concrete two-slot arena `sampleArena` is
well-formed, so every operation on it preserves its occupied slot. -/
theorem c10_no_in_place_mutation_witness :
    Arena.WF Arena.sampleArena ∧ Arena.NoMutationSpec Arena.sampleArena :=
  ⟨by decide, c10_no_in_place_mutation Arena.sampleArena (by decide)⟩

end CymCalc
